import Mathlib

/-!
Verification of the laser-show DMX pipeline (photonic_synesthesia).

Shallow embedding of the safety-relevant parts of the code base:
`dmx/universe.py`, `dmx/artnet.py`, `graph/nodes/dmx_output.py`,
`graph/nodes/safety_interlock.py` and `interpreters/safety.py`.

Machine representation choices:
* DMX universe buffers (start code + 512 channels) become functions `ℤ → ℕ`
  (every channel slot holds a byte; Python would raise on out-of-range
  writes, the embedded writers only ever store clamped values).
* Python `float` timestamps and configuration values become `ℚ`.
* Python `int` channel values become `ℤ`; `int(x)` on a float is modelled
  by `pyInt` (truncation toward zero).
* Python dictionaries (`channel_values`, `_last_channel_values`) become
  association lists in insertion order, with dictionary update semantics
  (`assoc_set` replaces an existing key in place, otherwise appends).
-/
/-- DMX universe: channel index (0 = start code, 1..512 = slots) to byte. -/
abbrev Universe := ℤ → ℕ

/-- `create_universe_buffer` (dmx/universe.py): all slots zero, start code 0. -/
def create_universe_buffer : Universe := fun _ => 0

/-- `is_valid_dmx_channel` (dmx/universe.py): 1-based slot index check. -/
def is_valid_dmx_channel (channel : ℤ) : Bool :=
  decide (1 ≤ channel ∧ channel ≤ 512)

/-- Pointwise write into a universe buffer (`universe[channel] = v`). -/
def uset (u : Universe) (channel : ℤ) (v : ℕ) : Universe :=
  fun c => if c = channel then v else u c

/-- Python `int(x)` on a real value: truncation toward zero. -/
def pyInt (q : ℚ) : ℤ := if 0 ≤ q then ⌊q⌋ else ⌈q⌉

/-- A Python float value as it can reach the DMX output stage: either a
finite rational or one of the non-finite IEEE values. -/
inductive PyFloat where
  | finite (q : ℚ)
  | nan
  | inf
  | ninf
deriving DecidableEq

/-- `math.isfinite` on an embedded float value. -/
def PyFloat.isFinite : PyFloat → Bool
  | .finite _ => true
  | _ => false

/-- `FixtureCommand` (core/state.py): channel values are Python ints. -/
structure FixtureCommand where
  fixture_id : String
  fixture_type : String
  channel_values : List (ℤ × ℤ)
deriving DecidableEq

/-- A fixture command as seen by the DMX output stage, where values may be
arbitrary floats (the stage defends against NaN/Inf at runtime). -/
structure FixtureCommandF where
  fixture_id : String
  fixture_type : String
  channel_values : List (ℤ × PyFloat)
deriving DecidableEq

/-- `LaserSafetyConfig` (core/config.py). -/
structure LaserSafetyConfig where
  y_axis_max : ℕ
  min_scan_speed : ℕ
  y_channel_offset : ℤ
  speed_channel_offset : ℤ
deriving DecidableEq

/-- `StrobeSafetyConfig` (core/config.py). -/
structure StrobeSafetyConfig where
  max_rate_hz : ℚ
  max_duration_s : ℚ
  cooldown_s : ℚ
deriving DecidableEq

/-- `SafetyConfig` (core/config.py); only the fields the core logic reads. -/
structure SafetyConfig where
  laser : LaserSafetyConfig
  strobe : StrobeSafetyConfig
  heartbeat_timeout_s : ℚ
  min_beat_confidence : ℚ
  graceful_degradation : Bool
deriving DecidableEq

/-- `FixtureConfig` (core/config.py); only the fields the core logic reads. -/
structure FixtureConfig where
  id : String
  type : String
  start_address : ℤ
  enabled : Bool
deriving DecidableEq

/-! ## DMX output node (graph/nodes/dmx_output.py) -/
/-- The cross-thread state of `DMXOutputNode` that `set_channel` touches:
the canonical universe buffer and the blackout-request latch. -/
structure DMXOutputState where
  univ : Universe
  blackout_requested : Bool

/-- `DMXOutputNode.set_channel` (dmx_output.py lines 277-282). -/
def set_channel (s : DMXOutputState) (channel value : ℤ) : DMXOutputState :=
  if is_valid_dmx_channel channel then
    { univ := uset s.univ channel (max 0 (min 255 value)).toNat,
      blackout_requested := false }
  else s

/-- One iteration of the inner loop of
`DMXOutputNode._apply_fixture_commands` (dmx_output.py lines 312-320):
skip invalid channels, silently drop NaN/Inf, clamp the truncated value. -/
def apply_cmd_entry (u : Universe) (p : ℤ × PyFloat) : Universe :=
  if is_valid_dmx_channel p.1 then
    match p.2 with
    | .finite q => uset u p.1 (max 0 (min 255 (pyInt q))).toNat
    | _ => u
  else u

/-- `DMXOutputNode._apply_fixture_commands` (dmx_output.py lines 309-320). -/
def apply_fixture_commands (u : Universe) (cmds : List FixtureCommandF) : Universe :=
  cmds.foldl (fun acc cmd => cmd.channel_values.foldl apply_cmd_entry acc) u

/-! ## Art-Net codec (dmx/artnet.py) -/
/-- `struct.pack "<H"`: 16-bit little-endian byte pair. -/
def le16 (n : ℕ) : List ℕ := [n % 256, n / 256 % 256]

/-- `struct.pack ">H"`: 16-bit big-endian byte pair. -/
def be16 (n : ℕ) : List ℕ := [n / 256 % 256, n % 256]

/-- `ARTNET_HEADER = b"Art-Net\x00"`. -/
def ARTNET_HEADER : List ℕ := [0x41, 0x72, 0x74, 0x2d, 0x4e, 0x65, 0x74, 0x00]

/-- `build_artdmx_packet` (artnet.py lines 16-42); `none` models the
`ValueError` raised for oversized payloads. -/
def build_artdmx_packet (univ : ℕ) (dmx_data : List ℕ)
    (sequence physical : ℕ) : Option (List ℕ) :=
  if dmx_data.length > 512 then none
  else
    some (ARTNET_HEADER ++ le16 0x5000 ++ be16 14 ++
      [sequence % 256, physical % 256] ++ le16 (univ &&& 0x7FFF) ++
      be16 (dmx_data ++ List.replicate (512 - dmx_data.length) 0).length ++
      (dmx_data ++ List.replicate (512 - dmx_data.length) 0))

/-- `DMXOutputNode._artnet_universe_address` (dmx_output.py lines 234-247). -/
def artnet_universe_address (artnet_net artnet_subnet univ : ℕ) : ℕ :=
  ((artnet_net &&& 0x7F) <<< 8) ||| ((artnet_subnet &&& 0x0F) <<< 4) |||
    (univ &&& 0x0F)

/-! ## Command interpreter (interpreters/safety.py) -/
/-- Dictionary lookup on an association list (`dict[key]` / `key in dict`). -/
def assoc_get (l : List (ℤ × ℤ)) (k : ℤ) : Option ℤ :=
  (l.find? (fun p => p.1 == k)).map (·.2)

/-- Dictionary lookup with default (`dict.get(key, d)`). -/
def assoc_getD (l : List (ℤ × ℤ)) (k : ℤ) (d : ℤ) : ℤ := (assoc_get l k).getD d

/-- Dictionary store (`dict[key] = v`): replace the (unique) existing entry
in place, otherwise append at the end, matching insertion-ordered dicts. -/
def assoc_set : List (ℤ × ℤ) → ℤ → ℤ → List (ℤ × ℤ)
  | [], k, v => [(k, v)]
  | p :: rest, k, v => if p.1 = k then (k, v) :: rest else p :: assoc_set rest k v

/-- `min(values.keys()) if values else 1` (safety.py line 41). -/
def min_key (l : List (ℤ × ℤ)) : ℤ :=
  match l with
  | [] => 1
  | p :: rest => rest.foldl (fun m q => min m q.1) p.1

/-- `SafetyConstraintInterpreter._strobe_budget_to_dmx` (safety.py 82-85):
Python `int()` truncates the scaled ratio. -/
def strobe_budget_to_dmx (safety : SafetyConfig) (strobe_budget_hz : ℚ) : ℤ :=
  pyInt (min 1 (max 0 (strobe_budget_hz / max (1/10) safety.strobe.max_rate_hz)) * 255)

/-- Modelled from the spec, for comparison with the code: the spec words the
strobe ceiling as `ratio = clamp(strobe_budget_hz / max_safe_rate_hz, 0, 1);
ceiling = round(ratio*255)`. -/
def strobe_budget_to_dmx_spec (safety : SafetyConfig) (strobe_budget_hz : ℚ) : ℤ :=
  round (min 1 (max 0 (strobe_budget_hz / safety.strobe.max_rate_hz)) * 255)

/-- The laser and strobe-budget shaping steps of
`SafetyConstraintInterpreter._interpret_single` (safety.py 39-61). -/
def shape_values (safety : SafetyConfig) (fixture_type : String)
    (strobe_budget_hz : ℚ) (vals : List (ℤ × ℤ)) : List (ℤ × ℤ) :=
  let base := min_key vals
  let vals1 :=
    if fixture_type = "laser" then
      let y_channel := base + safety.laser.y_channel_offset
      let movement_channel := base + safety.laser.speed_channel_offset
      let a :=
        match assoc_get vals y_channel with
        | some v => assoc_set vals y_channel (min v (safety.laser.y_axis_max : ℤ))
        | none => vals
      match assoc_get a movement_channel with
      | some v => assoc_set a movement_channel (max v (safety.laser.min_scan_speed : ℤ))
      | none => a
    else vals
  let strobe_limit := strobe_budget_to_dmx safety strobe_budget_hz
  if fixture_type = "moving_head" then
    match assoc_get vals1 (base + 6) with
    | some v => assoc_set vals1 (base + 6) (min v strobe_limit)
    | none => vals1
  else if fixture_type = "panel" then
    match assoc_get vals1 (base + 4) with
    | some v => assoc_set vals1 (base + 4) (min v strobe_limit)
    | none => vals1
  else vals1

/-- One iteration of the slew-limiting loop (safety.py 63-74); the
accumulator carries (`_last_channel_values`, the `smoothed` dict). -/
def slew_step (max_delta_per_frame : ℤ)
    (acc : List (ℤ × ℤ) × List (ℤ × ℤ)) (p : ℤ × ℤ) :
    List (ℤ × ℤ) × List (ℤ × ℤ) :=
  let prev := assoc_getD acc.1 p.1 0
  let delta := p.2 - prev
  let target :=
    if delta > max_delta_per_frame then prev + max_delta_per_frame
    else if delta < -max_delta_per_frame then prev - max_delta_per_frame
    else p.2
  let clamped := min 255 (max 0 target)
  (assoc_set acc.1 p.1 clamped, assoc_set acc.2 p.1 clamped)

/-- The value the slew limiter commits for request `t` given `prev`. -/
def slew_val (max_delta_per_frame prev t : ℤ) : ℤ :=
  min 255 (max 0
    (if t - prev > max_delta_per_frame then prev + max_delta_per_frame
     else if t - prev < -max_delta_per_frame then prev - max_delta_per_frame
     else t))

/-- `SafetyConstraintInterpreter._interpret_single` (safety.py 34-80). -/
def interpret_single (safety : SafetyConfig) (max_delta_per_frame : ℤ)
    (last : List (ℤ × ℤ)) (cmd : FixtureCommand) (strobe_budget_hz : ℚ) :
    List (ℤ × ℤ) × FixtureCommand :=
  let vals := shape_values safety cmd.fixture_type strobe_budget_hz cmd.channel_values
  let r := vals.foldl (slew_step max_delta_per_frame) (last, [])
  (r.1, ⟨cmd.fixture_id, cmd.fixture_type, r.2⟩)

/-- `SafetyConstraintInterpreter.interpret` (safety.py 24-32). -/
def interpret (safety : SafetyConfig) (max_delta_per_frame : ℤ)
    (last : List (ℤ × ℤ)) (cmds : List FixtureCommand) (strobe_budget_hz : ℚ) :
    List (ℤ × ℤ) × List FixtureCommand :=
  cmds.foldl (fun acc cmd =>
    let r := interpret_single safety max_delta_per_frame acc.1 cmd strobe_budget_hz
    (r.1, acc.2 ++ [r.2])) (last, [])

/-! ## Heartbeat watchdog (safety_interlock.py, HeartbeatWatchdog) -/
/-- The cross-thread state of `HeartbeatWatchdog`: the last heartbeat
timestamp and the one-shot trigger latch. -/
structure WatchdogState where
  last_heartbeat : ℚ
  timeout_triggered : Bool
deriving DecidableEq

/-- `HeartbeatWatchdog.beat` (safety_interlock.py 90-93). -/
def watchdog_beat (s : WatchdogState) (now : ℚ) : WatchdogState :=
  { last_heartbeat := now, timeout_triggered := false }

/-- One poll of `HeartbeatWatchdog._run_loop` (safety_interlock.py 95-105)
at time `now`: returns the new state and whether `_on_timeout` was invoked. -/
def watchdog_check (timeout_s : ℚ) (s : WatchdogState) (now : ℚ) :
    WatchdogState × Bool :=
  if now - s.last_heartbeat > timeout_s ∧ s.timeout_triggered = false then
    ({ s with timeout_triggered := true }, true)
  else (s, false)

/-- Number of `_on_timeout` invocations over a sequence of poll times with no
intervening `beat()` calls. -/
def watchdog_fires (timeout_s : ℚ) (s : WatchdogState) : List ℚ → ℕ
  | [] => 0
  | t :: rest =>
    (if (watchdog_check timeout_s s t).2 then 1 else 0) +
      watchdog_fires timeout_s (watchdog_check timeout_s s t).1 rest

/-! ## Safety interlock node (graph/nodes/safety_interlock.py) -/
/-- The persistent per-node state of `SafetyInterlockNode` (fields set in
`__init__` and mutated across ticks). -/
structure InterlockState where
  last_heartbeat : ℚ
  strobe_timestamps : List ℚ
  strobe_start_time : Option ℚ
  in_cooldown : Bool
  cooldown_end : ℚ
  last_strobe_active : Bool
  emergency_stop : Bool
deriving DecidableEq

/-- `SafetyState` (core/state.py 125-133). -/
structure SafetyState where
  ok : Bool
  last_heartbeat : ℚ
  error_state : Option String
  laser_enabled : Bool
  strobe_enabled : Bool
  emergency_stop : Bool
deriving DecidableEq

/-- The fields of `PhotonicState` that `SafetyInterlockNode.__call__` reads. -/
structure TickInput where
  timestamp : ℚ
  fixture_commands : List FixtureCommand
  dmx_universe : Universe
  beat_confidence : ℚ

/-- The fields of `PhotonicState` that `SafetyInterlockNode.__call__` writes. -/
structure TickOutput where
  fixture_commands : List FixtureCommand
  dmx_universe : Universe
  safety_state : SafetyState

/-- `SafetyInterlockNode._derive_strobe_channels` (safety_interlock.py
289-303): moving-head strobe at base + 6, panel strobe at base + 4. -/
def derive_strobe_channels (fixtures : List FixtureConfig) : List ℤ :=
  fixtures.foldr (fun f acc =>
    if f.type = "moving_head" then (f.start_address + 6) :: acc
    else if f.type = "panel" then (f.start_address + 4) :: acc
    else acc) []

/-- Check 3's command rewrite for one laser fixture's value dict
(safety_interlock.py 209-220): clamp the y channel down to `y_axis_max`,
then floor a slow-but-nonzero scan-speed channel to `min_scan_speed`. -/
def laser_clamp_values (cfg : SafetyConfig) (f : FixtureConfig)
    (vals : List (ℤ × ℤ)) : List (ℤ × ℤ) :=
  let y_channel := f.start_address + cfg.laser.y_channel_offset
  let speed_channel := f.start_address + cfg.laser.speed_channel_offset
  let vals1 :=
    match assoc_get vals y_channel with
    | some v =>
      if v > (cfg.laser.y_axis_max : ℤ) then
        assoc_set vals y_channel (cfg.laser.y_axis_max : ℤ)
      else vals
    | none => vals
  match assoc_get vals1 speed_channel with
  | some v =>
    if 0 < v ∧ v < (cfg.laser.min_scan_speed : ℤ) then
      assoc_set vals1 speed_channel (cfg.laser.min_scan_speed : ℤ)
    else vals1
  | none => vals1

/-- One laser fixture's pass over the command list (skips disabled
fixtures, rewrites only commands whose `fixture_id` matches). -/
def laser_clamp_step (cfg : SafetyConfig) (cs : List FixtureCommand)
    (f : FixtureConfig) : List FixtureCommand :=
  if f.enabled then
    cs.map (fun cmd =>
      if cmd.fixture_id = f.id then
        { cmd with channel_values := laser_clamp_values cfg f cmd.channel_values }
      else cmd)
  else cs

/-- Check 3 over the current frame's commands (safety_interlock.py 202-220);
the command pass and the universe pass of the source loop are independent,
so they are modelled as two folds over the laser fixtures. -/
def laser_clamp_cmds (cfg : SafetyConfig) (fixtures : List FixtureConfig)
    (cmds : List FixtureCommand) : List FixtureCommand :=
  (fixtures.filter (fun f => f.type = "laser")).foldl (laser_clamp_step cfg) cmds

/-- Check 3 on the previous frame's committed universe snapshot for one
fixture (safety_interlock.py 222-241). -/
def laser_clamp_universe_one (cfg : SafetyConfig) (f : FixtureConfig)
    (u : Universe) : Universe :=
  let y_channel := f.start_address + cfg.laser.y_channel_offset
  let speed_channel := f.start_address + cfg.laser.speed_channel_offset
  let u1 :=
    if is_valid_dmx_channel y_channel ∧ u y_channel > cfg.laser.y_axis_max then
      uset u y_channel cfg.laser.y_axis_max
    else u
  if is_valid_dmx_channel speed_channel ∧ u1 speed_channel < cfg.laser.min_scan_speed ∧
      u1 speed_channel > 0 then
    uset u1 speed_channel cfg.laser.min_scan_speed
  else u1

/-- One laser fixture's pass over the universe snapshot. -/
def laser_clamp_univ_step (cfg : SafetyConfig) (uu : Universe)
    (f : FixtureConfig) : Universe :=
  if f.enabled then laser_clamp_universe_one cfg f uu else uu

/-- Check 3 over the universe snapshot (safety_interlock.py 202-241). -/
def laser_clamp_univ (cfg : SafetyConfig) (fixtures : List FixtureConfig)
    (u : Universe) : Universe :=
  (fixtures.filter (fun f => f.type = "laser")).foldl (laser_clamp_univ_step cfg) u

/-- Strobe activity from the current command payload
(safety_interlock.py 320-328). -/
def strobe_cmd_active (channels : List ℤ) (cmds : List FixtureCommand) : Bool :=
  cmds.any (fun cmd => cmd.channel_values.any (fun p => channels.contains p.1 && p.2 > 0))

/-- Strobe activity from the last committed universe
(safety_interlock.py 330-333). -/
def strobe_universe_active (channels : List ℤ) (u : Universe) : Bool :=
  channels.any (fun ch => is_valid_dmx_channel ch && u ch > 0)

/-- `strobe_active = command_active or universe_active` (line 334). -/
def strobe_active_now (channels : List ℤ) (cmds : List FixtureCommand)
    (u : Universe) : Bool :=
  strobe_cmd_active channels cmds || strobe_universe_active channels u

/-- Line 336-337's condition: an onset timestamp is appended only on a
transition from inactive to active (and never on the empty-channel early
return). -/
def onset_recorded (channels : List ℤ) (st : InterlockState)
    (cmds : List FixtureCommand) (u : Universe) : Bool :=
  !channels.isEmpty && strobe_active_now channels cmds u && !st.last_strobe_active

/-- `deque(maxlen=100).append` for `_strobe_timestamps`. -/
def append_onset (ts : List ℚ) (t : ℚ) : List ℚ :=
  let l := ts ++ [t]
  if l.length > 100 then l.drop (l.length - 100) else l

/-- Result of `_apply_strobe_guards`: updated node state, possibly rewritten
commands and universe, and the reason string it returns. -/
structure StrobeGuardResult where
  st : InterlockState
  cmds : List FixtureCommand
  u : Universe
  reason : Option String

/-- `SafetyInterlockNode._apply_strobe_guards` (safety_interlock.py 305-381). -/
def apply_strobe_guards (cfg : SafetyConfig) (channels : List ℤ)
    (st : InterlockState) (cmds : List FixtureCommand) (u : Universe) (t : ℚ) :
    StrobeGuardResult :=
  if channels.isEmpty then
    ⟨{ st with last_strobe_active := false }, cmds, u, none⟩
  else
    let active := strobe_active_now channels cmds u
    let ts1 :=
      if active && !st.last_strobe_active then append_onset st.strobe_timestamps t
      else st.strobe_timestamps
    let sst1 : Option ℚ :=
      if active then
        (match st.strobe_start_time with | none => some t | some s0 => some s0)
      else none
    let ts2 := ts1.dropWhile (fun x => decide (t - x > 1))
    let trigger : Option String :=
      if (ts2.length : ℚ) > cfg.strobe.max_rate_hz then
        some "strobe_rate_limit_exceeded"
      else if (match sst1 with
          | some s0 => decide (t - s0 > cfg.strobe.max_duration_s)
          | none => false) then
        some "strobe_duration_limit_exceeded"
      else none
    let cd1 := if trigger.isSome then true else st.in_cooldown
    let cde1 := if trigger.isSome then t + cfg.strobe.cooldown_s else st.cooldown_end
    let sst2 := if trigger.isSome then none else sst1
    if cd1 then
      if t ≥ cde1 then
        ⟨{ st with
            strobe_timestamps := [],
            strobe_start_time := sst2,
            in_cooldown := false,
            cooldown_end := cde1,
            last_strobe_active := active },
          cmds, u, none⟩
      else
        ⟨{ st with
            strobe_timestamps := ts2,
            strobe_start_time := sst2,
            in_cooldown := true,
            cooldown_end := cde1,
            last_strobe_active := active },
          cmds.map (fun cmd =>
            { cmd with
              channel_values := cmd.channel_values.map (fun p =>
                if channels.contains p.1 then (p.1, 0) else p) }),
          fun ch => if channels.contains ch ∧ is_valid_dmx_channel ch then 0 else u ch,
          (match trigger with | some r => some r | none => some "strobe_cooldown_active")⟩
    else
      ⟨{ st with
          strobe_timestamps := ts2,
          strobe_start_time := sst2,
          in_cooldown := false,
          cooldown_end := cde1,
          last_strobe_active := active },
        cmds, u, none⟩

/-- `SafetyInterlockNode._apply_graceful_degradation`
(safety_interlock.py 383-417). -/
def apply_graceful_degradation (cfg : SafetyConfig) (fixtures : List FixtureConfig)
    (cmds : List FixtureCommand) (u : Universe) (beat_confidence : ℚ) :
    List FixtureCommand × Universe × ℚ :=
  let threshold := max cfg.min_beat_confidence (1/1000000)
  let ratio := max 0 (min 1 (beat_confidence / threshold))
  let scale := max (7/20) ratio
  if scale ≥ 999/1000 then (cmds, u, 1)
  else
    let prot := (fixtures.filter (fun f => f.type = "laser")).map (fun f => f.start_address)
    (cmds.map (fun cmd =>
      { cmd with
        channel_values := cmd.channel_values.map (fun p =>
          if prot.contains p.1 ∨ p.2 ≤ 0 then p
          else (p.1, pyInt (max 0 (min 255 ((p.2 : ℚ) * scale))))) }),
     fun ch =>
       if 1 ≤ ch ∧ ch ≤ 512 ∧ prot.contains ch = false ∧ u ch > 0 then
         (pyInt (max 0 (min 255 ((u ch : ℚ) * scale)))).toNat
       else u ch,
     scale)

/-- Result of one interlock tick: the node state and the state-dict fields
written back. -/
structure InterlockResult where
  st : InterlockState
  out : TickOutput

/-- `SafetyInterlockNode.__call__` (safety_interlock.py 163-283).  The
heartbeat error string drops the interpolated elapsed time; thread-only
effects (watchdog `beat()`, logging, timing stats) are omitted. -/
def interlock_call (cfg : SafetyConfig) (fixtures : List FixtureConfig)
    (st : InterlockState) (input : TickInput) : InterlockResult :=
  let t := input.timestamp
  let hb_timeout : Bool := decide (t - st.last_heartbeat > cfg.heartbeat_timeout_s)
  let u1 := if hb_timeout then create_universe_buffer else input.dmx_universe
  let err1 : Option String := if hb_timeout then some "heartbeat_timeout" else none
  let st1 := { st with last_heartbeat := t }
  let u2 := if st1.emergency_stop then create_universe_buffer else u1
  let err2 := if st1.emergency_stop then some "emergency_stop_active" else err1
  let cmds3 := laser_clamp_cmds cfg fixtures input.fixture_commands
  let u3 := laser_clamp_univ cfg fixtures u2
  let channels := derive_strobe_channels fixtures
  let g := apply_strobe_guards cfg channels st1 cmds3 u3 t
  let err4 :=
    if g.st.in_cooldown then
      (match err2 with
       | some e => some e
       | none =>
         (match g.reason with | some r => some r | none => some "strobe_cooldown_active"))
    else err2
  let ok := !hb_timeout && !st1.emergency_stop && !g.st.in_cooldown
  let deg :=
    if decide (input.beat_confidence < cfg.min_beat_confidence) && cfg.graceful_degradation then
      apply_graceful_degradation cfg fixtures g.cmds g.u input.beat_confidence
    else (g.cmds, g.u, 1)
  ⟨g.st,
   { fixture_commands := deg.1,
     dmx_universe := deg.2.1,
     safety_state :=
       { ok := ok, last_heartbeat := t, error_state := err4,
         laser_enabled := !st1.emergency_stop, strobe_enabled := !g.st.in_cooldown,
         emergency_stop := st1.emergency_stop } }⟩

/-- A sequence of interlock ticks (the node invoked once per frame). -/
def interlock_run (cfg : SafetyConfig) (fixtures : List FixtureConfig)
    (st : InterlockState) (inputs : List TickInput) :
    InterlockState × List TickOutput :=
  inputs.foldl (fun acc inp =>
    ((interlock_call cfg fixtures acc.1 inp).st,
     acc.2 ++ [(interlock_call cfg fixtures acc.1 inp).out])) (st, [])

/-! ### Strobe onset counting (C9) -/
/-- The per-tick inputs `_apply_strobe_guards` reads. -/
structure GuardInput where
  cmds : List FixtureCommand
  u : Universe
  t : ℚ

/-- Number of onset timestamps appended to `_strobe_timestamps` over a run
of guard invocations (line 336-337 executes the append exactly when
`onset_recorded` holds). -/
def count_onsets (cfg : SafetyConfig) (channels : List ℤ) (st : InterlockState) :
    List GuardInput → ℕ
  | [] => 0
  | inp :: rest =>
    (if onset_recorded channels st inp.cmds inp.u then 1 else 0) +
      count_onsets cfg channels
        (apply_strobe_guards cfg channels st inp.cmds inp.u inp.t).st rest

def c2cfg : SafetyConfig := ⟨⟨100, 30, 3, 4⟩, ⟨50, 1/100, 1⟩, 1, 3/10, true⟩

def c2fix : FixtureConfig := ⟨"p1", "panel", 10, true⟩

def c2st0 : InterlockState := ⟨0, [], none, false, 0, false, false⟩

def c2in1 : TickInput := ⟨0, [⟨"p1", "panel", [(14, 200)]⟩], fun _ => 0, 1⟩

def c2in2 : TickInput := ⟨1/50, [⟨"p1", "panel", [(14, 200)]⟩], fun _ => 0, 1⟩

/-! ## Theorems -/

/-! ## Claim theorems: C10, C8, C3 -/
theorem uset_same (u : Universe) (ch : ℤ) (v : ℕ) : uset u ch v ch = v := by
  simp [uset]

theorem uset_other (u : Universe) (ch c : ℤ) (v : ℕ) (h : c ≠ ch) :
    uset u ch v c = u c := by
  simp [uset, h]

/-- Claim C10: for a valid channel 1..512, `set_channel` writes the value
clamped to [0,255], leaves the start code and every other channel
unchanged, and clears the blackout-request latch; for an invalid channel
it changes nothing. -/
theorem C10_set_channel (s : DMXOutputState) (channel value : ℤ) :
    (is_valid_dmx_channel channel = true →
      (set_channel s channel value).univ channel = (max 0 (min 255 value)).toNat ∧
      (∀ c : ℤ, c ≠ channel → (set_channel s channel value).univ c = s.univ c) ∧
      (set_channel s channel value).blackout_requested = false) ∧
    (is_valid_dmx_channel channel = false → set_channel s channel value = s) := by
  constructor
  · intro hv
    have hs : set_channel s channel value =
        { univ := uset s.univ channel (max 0 (min 255 value)).toNat,
          blackout_requested := false } := by
      unfold set_channel
      rw [if_pos hv]
    rw [hs]
    exact ⟨uset_same _ _ _, fun c hc => uset_other _ _ _ _ hc, rfl⟩
  · intro hv
    unfold set_channel
    rw [if_neg (by simp [hv])]

/-- Witness for C10: channel 5 gets 300 clamped to 255, start code and
channel 6 untouched, latch cleared; channel 600 is rejected unchanged. -/
theorem C10_set_channel_witness :
    is_valid_dmx_channel 5 = true ∧
    (set_channel ⟨fun _ => 7, true⟩ 5 300).univ 5 = 255 ∧
    (set_channel ⟨fun _ => 7, true⟩ 5 300).univ 0 = 7 ∧
    (set_channel ⟨fun _ => 7, true⟩ 5 300).blackout_requested = false ∧
    set_channel ⟨fun _ => 7, true⟩ 600 300 = ⟨fun _ => 7, true⟩ := by
  have h := (C10_set_channel ⟨fun _ => 7, true⟩ 5 300).1 (by decide)
  have h2 := (C10_set_channel ⟨fun _ => 7, true⟩ 600 300).2 (by decide)
  exact ⟨by decide, h.1, h.2.1 0 (by decide), h.2.2, h2⟩

theorem and_mask_7FFF (n : ℕ) : n &&& 0x7FFF = n % 32768 := by
  have h : (0x7FFF : ℕ) = 2 ^ 15 - 1 := by norm_num
  rw [h, Nat.and_pow_two_sub_one_eq_mod]

/-- Claim C8: for every payload of at most 512 bytes the Art-Net builder
emits exactly header, opcode 0x5000 LE, protocol version 14 BE, sequence
byte, physical byte, universe address masked to its low 15 bits LE, the
(padded) payload length 512 BE, then the payload zero-padded to 512 bytes;
and the port address for universe=3, net=1, subnet=2 is 0x0123. -/
theorem C8_artnet_packet (univ : ℕ) (dmx_data : List ℕ)
    (sequence physical : ℕ) (h : dmx_data.length ≤ 512) :
    build_artdmx_packet univ dmx_data sequence physical =
      some (ARTNET_HEADER ++ [0x00, 0x50] ++ [0x00, 0x0e] ++
        [sequence % 256, physical % 256] ++
        [univ % 32768 % 256, univ % 32768 / 256] ++
        [0x02, 0x00] ++ (dmx_data ++ List.replicate (512 - dmx_data.length) 0)) ∧
    artnet_universe_address 1 2 3 = 0x0123 := by
  constructor
  · have hlen : (dmx_data ++ List.replicate (512 - dmx_data.length) 0).length = 512 := by
      rw [List.length_append, List.length_replicate]
      omega
    have hstep : build_artdmx_packet univ dmx_data sequence physical =
        some (ARTNET_HEADER ++ le16 0x5000 ++ be16 14 ++
          [sequence % 256, physical % 256] ++ le16 (univ &&& 0x7FFF) ++
          be16 (dmx_data ++ List.replicate (512 - dmx_data.length) 0).length ++
          (dmx_data ++ List.replicate (512 - dmx_data.length) 0)) := by
      unfold build_artdmx_packet
      rw [if_neg (by omega)]
    rw [hstep, hlen, and_mask_7FFF]
    have hmod : univ % 32768 / 256 % 256 = univ % 32768 / 256 := by
      have h1 : univ % 32768 < 32768 := Nat.mod_lt _ (by norm_num)
      have h2 : univ % 32768 / 256 < 256 := by omega
      exact Nat.mod_eq_of_lt h2
    simp only [le16, be16]
    rw [hmod]
  · decide

/-- Witness for C8: the concrete packet from the spec example —
universe address 0x0123 (bytes 23 01), sequence 5, 512 bytes of 0x07
appended unchanged, length bytes 02 00. -/
theorem C8_artnet_packet_witness :
    (List.replicate 512 7).length ≤ 512 ∧
    build_artdmx_packet (artnet_universe_address 1 2 3) (List.replicate 512 7) 5 0 =
      some (ARTNET_HEADER ++ [0x00, 0x50] ++ [0x00, 0x0e] ++ [5, 0] ++
        [0x23, 0x01] ++ [0x02, 0x00] ++
        (List.replicate 512 7 ++
          List.replicate (512 - (List.replicate 512 7).length) 0)) := by
  have hle : (List.replicate 512 7).length ≤ 512 := by
    rw [List.length_replicate]
  have h := (C8_artnet_packet (artnet_universe_address 1 2 3) (List.replicate 512 7) 5 0
    hle).1
  refine ⟨hle, ?_⟩
  have haddr : artnet_universe_address 1 2 3 = 291 := by decide
  rw [haddr] at h ⊢
  exact h

theorem apply_cmd_entry_nonfinite (u : Universe) (p : ℤ × PyFloat)
    (h : p.2.isFinite = false) : apply_cmd_entry u p = u := by
  obtain ⟨pc, pv⟩ := p
  cases pv with
  | finite q => simp [PyFloat.isFinite] at h
  | nan => cases hv : is_valid_dmx_channel pc <;> simp [apply_cmd_entry, hv]
  | inf => cases hv : is_valid_dmx_channel pc <;> simp [apply_cmd_entry, hv]
  | ninf => cases hv : is_valid_dmx_channel pc <;> simp [apply_cmd_entry, hv]

theorem apply_cmd_entry_other (u : Universe) (p : ℤ × PyFloat) (c : ℤ)
    (h : c ≠ p.1) : apply_cmd_entry u p c = u c := by
  obtain ⟨pc, pv⟩ := p
  cases hv : is_valid_dmx_channel pc
  · simp [apply_cmd_entry, hv]
  · cases pv <;> simp [apply_cmd_entry, hv, uset, h]

theorem apply_cmd_entry_bound (u : Universe) (p : ℤ × PyFloat) (c : ℤ) :
    apply_cmd_entry u p c ≤ 255 ∨ apply_cmd_entry u p c = u c := by
  by_cases hc : c = p.1
  · obtain ⟨pc, pv⟩ := p
    cases hv : is_valid_dmx_channel pc
    · right; simp [apply_cmd_entry, hv]
    · cases pv with
      | finite q =>
        left
        simp only [apply_cmd_entry, hv, if_true]
        rw [hc, uset_same]
        omega
      | nan => right; simp [apply_cmd_entry, hv]
      | inf => right; simp [apply_cmd_entry, hv]
      | ninf => right; simp [apply_cmd_entry, hv]
  · right; exact apply_cmd_entry_other u p c hc

theorem foldl_entries_nonfinite (c : ℤ) :
    ∀ (vals : List (ℤ × PyFloat)) (u : Universe),
      (∀ p ∈ vals, p.1 = c → p.2.isFinite = false) →
      vals.foldl apply_cmd_entry u c = u c := by
  intro vals
  induction vals with
  | nil => intro u _; rfl
  | cons p ps ih =>
    intro u hv
    rw [List.foldl_cons, ih _ (fun q hq => hv q (List.mem_cons_of_mem _ hq))]
    by_cases hpc : p.1 = c
    · rw [apply_cmd_entry_nonfinite u p (hv p (List.mem_cons_self _ _) hpc)]
    · exact apply_cmd_entry_other u p c (fun he => hpc he.symm)

theorem foldl_entries_bound (c : ℤ) :
    ∀ (vals : List (ℤ × PyFloat)) (u : Universe),
      vals.foldl apply_cmd_entry u c ≤ 255 ∨ vals.foldl apply_cmd_entry u c = u c := by
  intro vals
  induction vals with
  | nil => intro u; right; rfl
  | cons p ps ih =>
    intro u
    rw [List.foldl_cons]
    rcases ih (apply_cmd_entry u p) with h | h
    · exact Or.inl h
    · rw [h]
      exact apply_cmd_entry_bound u p c

/-- Claim C3: applying fixture commands in the Output stage (a) ignores any
NaN/Inf entry outright, (b) leaves a channel untouched when every entry
addressing it is non-finite, and (c) every channel of the result either
holds a freshly written clamped byte (≤ 255) or its prior value; the
function is total, so it never raises. -/
theorem C3_nan_inf_rejected (u : Universe) (cmds : List FixtureCommandF) (c : ℤ) :
    (∀ (u' : Universe) (v : PyFloat), v.isFinite = false →
      apply_cmd_entry u' (c, v) = u') ∧
    ((∀ cmd ∈ cmds, ∀ p ∈ cmd.channel_values, p.1 = c → p.2.isFinite = false) →
      apply_fixture_commands u cmds c = u c) ∧
    (apply_fixture_commands u cmds c ≤ 255 ∨ apply_fixture_commands u cmds c = u c) := by
  refine ⟨fun u' v hv => apply_cmd_entry_nonfinite u' (c, v) hv, ?_, ?_⟩
  · intro hall
    induction cmds generalizing u with
    | nil => rfl
    | cons cmd rest ih =>
      have h2 := ih (cmd.channel_values.foldl apply_cmd_entry u)
        (fun cm hm p hp => hall cm (List.mem_cons_of_mem _ hm) p hp)
      have h1 := foldl_entries_nonfinite c cmd.channel_values u
        (fun p hp => hall cmd (List.mem_cons_self _ _) p hp)
      calc apply_fixture_commands u (cmd :: rest) c
          = apply_fixture_commands (cmd.channel_values.foldl apply_cmd_entry u) rest c := rfl
        _ = (cmd.channel_values.foldl apply_cmd_entry u) c := h2
        _ = u c := h1
  · induction cmds generalizing u with
    | nil => right; rfl
    | cons cmd rest ih =>
      have hstep : apply_fixture_commands u (cmd :: rest) c
          = apply_fixture_commands (cmd.channel_values.foldl apply_cmd_entry u) rest c := rfl
      rcases ih (cmd.channel_values.foldl apply_cmd_entry u) with h | h
      · left; rw [hstep]; exact h
      · rw [hstep, h]
        exact foldl_entries_bound c cmd.channel_values u

/-- Witness for C3: a NaN at channel 9 leaves the prior value 200, an Inf
entry is a no-op, and a huge finite value at channel 3 stays within 255. -/
theorem C3_nan_inf_rejected_witness :
    (apply_cmd_entry (fun _ => 200) (9, PyFloat.inf) = fun _ => 200) ∧
    apply_fixture_commands (fun _ => 200)
      [⟨"f", "panel", [(9, PyFloat.nan), (3, PyFloat.finite 1000)]⟩] 9 = 200 ∧
    apply_fixture_commands (fun _ => 200)
      [⟨"f", "panel", [(9, PyFloat.nan), (3, PyFloat.finite 1000)]⟩] 3 ≤ 255 := by
  have h9 := C3_nan_inf_rejected (fun _ => 200)
    [⟨"f", "panel", [(9, PyFloat.nan), (3, PyFloat.finite 1000)]⟩] 9
  have h3 := C3_nan_inf_rejected (fun _ => 200)
    [⟨"f", "panel", [(9, PyFloat.nan), (3, PyFloat.finite 1000)]⟩] 3
  refine ⟨h9.1 (fun _ => 200) PyFloat.inf (by decide), h9.2.1 (by decide), ?_⟩
  rcases h3.2.2 with h | h
  · exact h
  · rw [h]; norm_num

theorem assoc_get_set_same (l : List (ℤ × ℤ)) (k v : ℤ) :
    assoc_get (assoc_set l k v) k = some v := by
  induction l with
  | nil => simp [assoc_set, assoc_get]
  | cons p rest ih =>
    by_cases h : p.1 = k
    · simp [assoc_set, assoc_get, h]
    · simp only [assoc_set, if_neg h]
      unfold assoc_get
      rw [List.find?_cons_of_neg _ (by simp [h])]
      exact ih

theorem assoc_get_set_other (l : List (ℤ × ℤ)) (k v k' : ℤ) (h : k' ≠ k) :
    assoc_get (assoc_set l k v) k' = assoc_get l k' := by
  induction l with
  | nil =>
    show assoc_get [(k, v)] k' = assoc_get [] k'
    unfold assoc_get
    rw [List.find?_cons_of_neg _ (by simp [Ne.symm h])]
  | cons p rest ih =>
    by_cases hp : p.1 = k
    · simp only [assoc_set, if_pos hp]
      unfold assoc_get
      rw [List.find?_cons_of_neg _ (by simp [Ne.symm h]),
        List.find?_cons_of_neg _ (by simp [hp, Ne.symm h])]
    · simp only [assoc_set, if_neg hp]
      by_cases hk' : p.1 = k'
      · unfold assoc_get
        rw [List.find?_cons_of_pos _ (by simp [hk']),
          List.find?_cons_of_pos _ (by simp [hk'])]
      · unfold assoc_get
        rw [List.find?_cons_of_neg _ (by simp [hk']),
          List.find?_cons_of_neg _ (by simp [hk'])]
        exact ih

theorem assoc_getD_bounds (l : List (ℤ × ℤ)) (k : ℤ)
    (h : ∀ p ∈ l, 0 ≤ p.2 ∧ p.2 ≤ 255) :
    0 ≤ assoc_getD l k 0 ∧ assoc_getD l k 0 ≤ 255 := by
  unfold assoc_getD assoc_get
  cases hf : l.find? (fun p => p.1 == k) with
  | none => exact ⟨by decide, by decide⟩
  | some p =>
    exact h p (List.mem_of_find?_eq_some hf)

theorem slew_val_spec (mdpf prev t : ℤ) (h1 : 1 ≤ mdpf) (h2 : 0 ≤ prev)
    (h3 : prev ≤ 255) :
    |slew_val mdpf prev t - prev| ≤ mdpf ∧ 0 ≤ slew_val mdpf prev t ∧
      slew_val mdpf prev t ≤ 255 ∧
      (|t - prev| ≤ mdpf → slew_val mdpf prev t = min 255 (max 0 t)) := by
  unfold slew_val
  split_ifs with hgt hlt
  · refine ⟨by rw [abs_le]; omega, by omega, by omega, ?_⟩
    intro h; rw [abs_le] at h; omega
  · refine ⟨by rw [abs_le]; omega, by omega, by omega, ?_⟩
    intro h; rw [abs_le] at h; omega
  · exact ⟨by rw [abs_le]; omega, by omega, by omega, fun _ => rfl⟩

theorem slew_fold_spec (mdpf : ℤ) :
    ∀ (l L S : List (ℤ × ℤ)),
      (l.map Prod.fst).Nodup →
      (∀ p ∈ l, assoc_get S p.1 = none) →
      (∀ p ∈ l,
        assoc_get (l.foldl (slew_step mdpf) (L, S)).2 p.1 =
          some (slew_val mdpf (assoc_getD L p.1 0) p.2) ∧
        assoc_get (l.foldl (slew_step mdpf) (L, S)).1 p.1 =
          some (slew_val mdpf (assoc_getD L p.1 0) p.2)) ∧
      (∀ k, (∀ p ∈ l, p.1 ≠ k) →
        assoc_get (l.foldl (slew_step mdpf) (L, S)).1 k = assoc_get L k ∧
        assoc_get (l.foldl (slew_step mdpf) (L, S)).2 k = assoc_get S k) := by
  intro l
  induction l with
  | nil => exact fun L S _ _ => ⟨fun p hp => absurd hp (List.not_mem_nil p), fun k _ => ⟨rfl, rfl⟩⟩
  | cons q rest ih =>
    intro L S hnd hS
    have hq : slew_step mdpf (L, S) q =
        (assoc_set L q.1 (slew_val mdpf (assoc_getD L q.1 0) q.2),
         assoc_set S q.1 (slew_val mdpf (assoc_getD L q.1 0) q.2)) := rfl
    have hnd' : (rest.map Prod.fst).Nodup := (List.nodup_cons.mp hnd).2
    have hqrest : ∀ p ∈ rest, p.1 ≠ q.1 := by
      intro p hp he
      exact (List.nodup_cons.mp hnd).1 (he ▸ List.mem_map_of_mem Prod.fst hp)
    have hS' : ∀ p ∈ rest,
        assoc_get (assoc_set S q.1 (slew_val mdpf (assoc_getD L q.1 0) q.2)) p.1 = none := by
      intro p hp
      rw [assoc_get_set_other _ _ _ _ (hqrest p hp)]
      exact hS p (List.mem_cons_of_mem _ hp)
    have ihr := ih (assoc_set L q.1 (slew_val mdpf (assoc_getD L q.1 0) q.2))
      (assoc_set S q.1 (slew_val mdpf (assoc_getD L q.1 0) q.2)) hnd' hS'
    constructor
    · intro p hp
      rcases List.mem_cons.mp hp with hpq | hpr
      · subst hpq
        have hpres := ihr.2 p.1 (fun r hr => hqrest r hr)
        rw [List.foldl_cons, hq]
        refine ⟨?_, ?_⟩
        · rw [hpres.2, assoc_get_set_same]
        · rw [hpres.1, assoc_get_set_same]
      · have := ihr.1 p hpr
        rw [List.foldl_cons, hq]
        have hgd : assoc_getD (assoc_set L q.1 (slew_val mdpf (assoc_getD L q.1 0) q.2)) p.1 0 =
            assoc_getD L p.1 0 := by
          unfold assoc_getD
          rw [assoc_get_set_other _ _ _ _ (hqrest p hpr)]
        rw [hgd] at this
        exact this
    · intro k hk
      have hq1 : q.1 ≠ k := hk q (List.mem_cons_self _ _)
      have := ihr.2 k (fun p hp => hk p (List.mem_cons_of_mem _ hp))
      rw [List.foldl_cons, hq]
      refine ⟨?_, ?_⟩
      · rw [this.1, assoc_get_set_other _ _ _ _ (Ne.symm hq1)]
      · rw [this.2, assoc_get_set_other _ _ _ _ (Ne.symm hq1)]

/-- Claim C6: for every channel of an interpreted command, the interpreter
moves the committed value at most `max_delta_per_frame` away from the
per-channel last-committed value (and commits the clamped request outright
when it is within that delta), clamps it into [0,255], and stores it as the
new last-committed value. -/
theorem C6_slew_limiting (safety : SafetyConfig) (mdpf : ℤ)
    (last : List (ℤ × ℤ)) (cmd : FixtureCommand) (budget : ℚ)
    (hmdpf : 1 ≤ mdpf)
    (hlast : ∀ p ∈ last, 0 ≤ p.2 ∧ p.2 ≤ 255)
    (hnodup : ((shape_values safety cmd.fixture_type budget cmd.channel_values).map
      Prod.fst).Nodup) :
    ∀ p ∈ shape_values safety cmd.fixture_type budget cmd.channel_values,
      ∃ r,
        assoc_get (interpret_single safety mdpf last cmd budget).2.channel_values p.1 =
          some r ∧
        assoc_get (interpret_single safety mdpf last cmd budget).1 p.1 = some r ∧
        0 ≤ r ∧ r ≤ 255 ∧
        |r - assoc_getD last p.1 0| ≤ mdpf ∧
        (|p.2 - assoc_getD last p.1 0| ≤ mdpf → r = min 255 (max 0 p.2)) := by
  intro p hp
  have hfold := slew_fold_spec mdpf
    (shape_values safety cmd.fixture_type budget cmd.channel_values) last []
    hnodup (fun _ _ => rfl)
  have hmem := hfold.1 p hp
  have hbounds := assoc_getD_bounds last p.1 hlast
  have hval := slew_val_spec mdpf (assoc_getD last p.1 0) p.2 hmdpf hbounds.1 hbounds.2
  refine ⟨slew_val mdpf (assoc_getD last p.1 0) p.2, ?_, ?_, hval.2.1, hval.2.2.1,
    hval.1, hval.2.2.2⟩
  · exact hmem.1
  · exact hmem.2

/-- Witness for C6: with `max_delta_per_frame = 36` and last-committed 100 on
channel 10, a request of 200 is committed at 136; channel 11 ramps 0 → 36. -/
theorem C6_slew_limiting_witness :
    (1 : ℤ) ≤ 36 ∧
    (∃ r,
      assoc_get (interpret_single ⟨⟨100, 30, 3, 4⟩, ⟨10, 5, 2⟩, 1, 3/10, true⟩ 36
        [(10, 100)] ⟨"p", "panel", [(10, 200), (11, 50)]⟩ 100).2.channel_values 10 =
        some r ∧
      assoc_get (interpret_single ⟨⟨100, 30, 3, 4⟩, ⟨10, 5, 2⟩, 1, 3/10, true⟩ 36
        [(10, 100)] ⟨"p", "panel", [(10, 200), (11, 50)]⟩ 100).1 10 = some r ∧
      0 ≤ r ∧ r ≤ 255 ∧
      |r - assoc_getD [(10, 100)] 10 0| ≤ 36 ∧
      (|(200 : ℤ) - assoc_getD [(10, 100)] 10 0| ≤ 36 → r = min 255 (max 0 200))) := by
  refine ⟨by norm_num, ?_⟩
  have h := C6_slew_limiting ⟨⟨100, 30, 3, 4⟩, ⟨10, 5, 2⟩, 1, 3/10, true⟩ 36
    [(10, 100)] ⟨"p", "panel", [(10, 200), (11, 50)]⟩ 100
    (by norm_num) (by decide) (by decide) (10, 200) (by decide)
  exact h

theorem shape_values_moving_head (safety : SafetyConfig) (budget : ℚ)
    (vals : List (ℤ × ℤ)) (v : ℤ)
    (h : assoc_get vals (min_key vals + 6) = some v) :
    shape_values safety "moving_head" budget vals =
      assoc_set vals (min_key vals + 6) (min v (strobe_budget_to_dmx safety budget)) := by
  simp only [shape_values, reduceIte, h]
  rw [if_neg (show ¬("moving_head" : String) = "laser" by decide), h]

theorem shape_values_panel (safety : SafetyConfig) (budget : ℚ)
    (vals : List (ℤ × ℤ)) (v : ℤ)
    (h : assoc_get vals (min_key vals + 4) = some v) :
    shape_values safety "panel" budget vals =
      assoc_set vals (min_key vals + 4) (min v (strobe_budget_to_dmx safety budget)) := by
  simp only [shape_values, reduceIte, h]
  rw [if_neg (show ¬("panel" : String) = "laser" by decide),
    if_neg (show ¬("panel" : String) = "moving_head" by decide), h]

theorem strobe_budget_to_dmx_eq_floor (safety : SafetyConfig) (budget : ℚ) :
    strobe_budget_to_dmx safety budget =
      ⌊min 1 (max 0 (budget / max (1/10) safety.strobe.max_rate_hz)) * 255⌋ := by
  unfold strobe_budget_to_dmx pyInt
  rw [if_pos]
  have hy : (0 : ℚ) ≤ max 0 (budget / max (1/10) safety.strobe.max_rate_hz) :=
    le_max_left 0 _
  have hm : (0 : ℚ) ≤ min 1 (max 0 (budget / max (1/10) safety.strobe.max_rate_hz)) :=
    le_min (by norm_num) hy
  exact mul_nonneg hm (by norm_num)

/-- Claim C7 is false as stated: the code computes the strobe ceiling with
Python `int()` (truncation), not `round`. For `strobe_budget_hz = 5` and
`max_rate_hz = 10` the ratio is 0.5, the code ceiling is `int(127.5) = 127`
while the spec formula gives `round(127.5) = 128`, and a moving-head strobe
channel (base + 6) requested at 255 is committed at 127, not 128. -/
theorem C7_counterexample :
    strobe_budget_to_dmx ⟨⟨100, 30, 3, 4⟩, ⟨10, 5, 2⟩, 1, 3/10, true⟩ 5 = 127 ∧
    strobe_budget_to_dmx_spec ⟨⟨100, 30, 3, 4⟩, ⟨10, 5, 2⟩, 1, 3/10, true⟩ 5 = 128 ∧
    assoc_get (interpret_single ⟨⟨100, 30, 3, 4⟩, ⟨10, 5, 2⟩, 1, 3/10, true⟩ 36
      [(7, 100)] ⟨"mh", "moving_head", [(1, 10), (7, 255)]⟩ 5).2.channel_values 7 =
      some 127 := by
  have h1 : strobe_budget_to_dmx ⟨⟨100, 30, 3, 4⟩, ⟨10, 5, 2⟩, 1, 3/10, true⟩ 5 = 127 := by
    rw [strobe_budget_to_dmx_eq_floor]
    norm_num [min_def, max_def, Int.floor_eq_iff]
  have hshape : shape_values ⟨⟨100, 30, 3, 4⟩, ⟨10, 5, 2⟩, 1, 3/10, true⟩ "moving_head" 5
      [(1, 10), (7, 255)] = [(1, 10), (7, 127)] := by
    rw [shape_values_moving_head _ _ _ 255 (by decide), h1]
    decide
  refine ⟨h1, ?_, ?_⟩
  · unfold strobe_budget_to_dmx_spec
    rw [round_eq]
    norm_num [min_def, max_def, Int.floor_eq_iff]
  · simp only [interpret_single]
    rw [hshape]
    decide

/-- Claim C7 (amended): the ceiling is
`⌊clamp(strobe_budget_hz / max(0.1, max_rate_hz), 0, 1) * 255⌋` — truncation
via `int()`, not rounding — and the shaping stage clamps the moving-head
strobe channel (base + 6) and the panel strobe channel (base + 4) to it. -/
theorem C7_strobe_budget (safety : SafetyConfig) (budget : ℚ) :
    strobe_budget_to_dmx safety budget =
      ⌊min 1 (max 0 (budget / max (1/10) safety.strobe.max_rate_hz)) * 255⌋ ∧
    (∀ (vals : List (ℤ × ℤ)) (v : ℤ),
      assoc_get vals (min_key vals + 6) = some v →
      assoc_get (shape_values safety "moving_head" budget vals) (min_key vals + 6) =
        some (min v (strobe_budget_to_dmx safety budget))) ∧
    (∀ (vals : List (ℤ × ℤ)) (v : ℤ),
      assoc_get vals (min_key vals + 4) = some v →
      assoc_get (shape_values safety "panel" budget vals) (min_key vals + 4) =
        some (min v (strobe_budget_to_dmx safety budget))) := by
  refine ⟨strobe_budget_to_dmx_eq_floor safety budget, ?_, ?_⟩
  · intro vals v h
    rw [shape_values_moving_head safety budget vals v h]
    exact assoc_get_set_same _ _ _
  · intro vals v h
    rw [shape_values_panel safety budget vals v h]
    exact assoc_get_set_same _ _ _

/-- Witness for C7 (amended): budget 5 Hz against max 10 Hz gives ceiling
127; a moving-head strobe request at channel 7 and a panel strobe request at
channel 5 are both clamped to min(200, 127). -/
theorem C7_strobe_budget_witness :
    assoc_get [((1:ℤ), (10:ℤ)), (7, 200)]
      (min_key [((1:ℤ), (10:ℤ)), (7, 200)] + 6) = some 200 ∧
    assoc_get (shape_values ⟨⟨100, 30, 3, 4⟩, ⟨10, 5, 2⟩, 1, 3/10, true⟩ "moving_head" 5
        [(1, 10), (7, 200)]) (min_key [((1:ℤ), (10:ℤ)), (7, 200)] + 6) =
      some (min 200 (strobe_budget_to_dmx ⟨⟨100, 30, 3, 4⟩, ⟨10, 5, 2⟩, 1, 3/10, true⟩ 5)) ∧
    assoc_get (shape_values ⟨⟨100, 30, 3, 4⟩, ⟨10, 5, 2⟩, 1, 3/10, true⟩ "panel" 5
        [(1, 10), (5, 200)]) (min_key [((1:ℤ), (10:ℤ)), (5, 200)] + 4) =
      some (min 200 (strobe_budget_to_dmx ⟨⟨100, 30, 3, 4⟩, ⟨10, 5, 2⟩, 1, 3/10, true⟩ 5)) := by
  refine ⟨by decide, ?_, ?_⟩
  · exact (C7_strobe_budget ⟨⟨100, 30, 3, 4⟩, ⟨10, 5, 2⟩, 1, 3/10, true⟩ 5).2.1
      [(1, 10), (7, 200)] 200 (by decide)
  · exact (C7_strobe_budget ⟨⟨100, 30, 3, 4⟩, ⟨10, 5, 2⟩, 1, 3/10, true⟩ 5).2.2
      [(1, 10), (5, 200)] 200 (by decide)

theorem watchdog_check_triggered (timeout_s : ℚ) (s : WatchdogState) (now : ℚ)
    (h : s.timeout_triggered = true) : watchdog_check timeout_s s now = (s, false) := by
  unfold watchdog_check
  rw [if_neg]
  simp [h]

theorem watchdog_fires_of_triggered (timeout_s : ℚ) :
    ∀ (times : List ℚ) (s : WatchdogState), s.timeout_triggered = true →
      watchdog_fires timeout_s s times = 0 := by
  intro times
  induction times with
  | nil => intro s _; rfl
  | cons t rest ih =>
    intro s h
    unfold watchdog_fires
    rw [watchdog_check_triggered _ _ _ h]
    simpa using ih s h

/-- Claim C4: the watchdog fires at most once per stall — across any
sequence of polls without a beat, the callback runs at most once; when the
threshold is first crossed with the latch clear it fires exactly once and
latches; and `beat()` resets both the timestamp and the latch so that a
later stall fires again. -/
theorem C4_watchdog_once (timeout_s : ℚ) (s : WatchdogState) (times : List ℚ)
    (now t' : ℚ) (hcross : now - s.last_heartbeat > timeout_s)
    (hclear : s.timeout_triggered = false) (hstall : t' - now > timeout_s) :
    watchdog_fires timeout_s s times ≤ 1 ∧
    watchdog_check timeout_s s now =
      ({ last_heartbeat := s.last_heartbeat, timeout_triggered := true }, true) ∧
    watchdog_beat s now = { last_heartbeat := now, timeout_triggered := false } ∧
    watchdog_check timeout_s (watchdog_beat s now) t' =
      ({ last_heartbeat := now, timeout_triggered := true }, true) := by
  refine ⟨?_, ?_, rfl, ?_⟩
  · -- at most one fire along any poll trace
    clear hcross hstall
    induction times generalizing s with
    | nil => simp [watchdog_fires]
    | cons t rest ih =>
      unfold watchdog_fires watchdog_check
      by_cases hc : t - s.last_heartbeat > timeout_s ∧ s.timeout_triggered = false
      · rw [if_pos hc]
        have h0 := watchdog_fires_of_triggered timeout_s rest
          { s with timeout_triggered := true } rfl
        simp [h0]
      · rw [if_neg hc]
        simpa using ih s hclear
  · unfold watchdog_check
    rw [if_pos ⟨hcross, hclear⟩]
  · unfold watchdog_check watchdog_beat
    rw [if_pos ⟨by simpa using hstall, rfl⟩]

/-- Witness for C4: with timeout 1/2s, a stalled state at t=2 (last beat 0)
fires once; over polls at 2, 3, 4 it fires at most once; after `beat(2)` a
poll at 3 fires again. -/
theorem C4_watchdog_once_witness :
    (2 : ℚ) - 0 > 1/2 ∧ (3 : ℚ) - 2 > 1/2 ∧
    watchdog_fires (1/2) ⟨0, false⟩ [2, 3, 4] ≤ 1 ∧
    watchdog_check (1/2) ⟨0, false⟩ 2 = (⟨0, true⟩, true) ∧
    watchdog_beat ⟨0, false⟩ 2 = ⟨2, false⟩ ∧
    watchdog_check (1/2) (watchdog_beat ⟨0, false⟩ 2) 3 = (⟨2, true⟩, true) := by
  have h := C4_watchdog_once (1/2) ⟨0, false⟩ [2, 3, 4] 2 3
    (by norm_num) rfl (by norm_num)
  exact ⟨by norm_num, by norm_num, h.1, h.2.1, h.2.2.1, h.2.2.2⟩

/-! ### Association-list entry lemmas -/
theorem mem_assoc_set (l : List (ℤ × ℤ)) (k v : ℤ) (p : ℤ × ℤ)
    (h : p ∈ assoc_set l k v) : p = (k, v) ∨ p ∈ l := by
  induction l with
  | nil => simpa [assoc_set] using h
  | cons q rest ih =>
    by_cases hq : q.1 = k
    · rw [assoc_set, if_pos hq] at h
      rcases List.mem_cons.mp h with h' | h'
      · exact Or.inl h'
      · exact Or.inr (List.mem_cons_of_mem _ h')
    · rw [assoc_set, if_neg hq] at h
      rcases List.mem_cons.mp h with h' | h'
      · exact Or.inr (h' ▸ List.mem_cons_self _ _)
      · rcases ih h' with h'' | h''
        · exact Or.inl h''
        · exact Or.inr (List.mem_cons_of_mem _ h'')

theorem mem_assoc_set_ne (l : List (ℤ × ℤ)) (k v : ℤ) (p : ℤ × ℤ)
    (h : p ∈ assoc_set l k v) (hne : p.1 ≠ k) : p ∈ l := by
  rcases mem_assoc_set l k v p h with h' | h'
  · exact absurd (by rw [h']) hne
  · exact h'

theorem assoc_get_none_not_mem (l : List (ℤ × ℤ)) (k : ℤ)
    (h : assoc_get l k = none) : ∀ p ∈ l, p.1 ≠ k := by
  intro p hp he
  unfold assoc_get at h
  rw [Option.map_eq_none', List.find?_eq_none] at h
  exact absurd (by simpa using he) (h p hp)

theorem assoc_get_eq_of_nodup (l : List (ℤ × ℤ)) (k v : ℤ)
    (hnd : (l.map Prod.fst).Nodup) (h : assoc_get l k = some v) :
    ∀ p ∈ l, p.1 = k → p.2 = v := by
  induction l with
  | nil => intro p hp; exact absurd hp (List.not_mem_nil p)
  | cons q rest ih =>
    intro p hp hpk
    by_cases hq : q.1 = k
    · have hfind : assoc_get (q :: rest) k = some q.2 := by
        unfold assoc_get
        rw [List.find?_cons_of_pos _ (by simp [hq])]
        rfl
      have hv : v = q.2 := by rw [hfind] at h; exact (Option.some_inj.mp h).symm
      rcases List.mem_cons.mp hp with h' | h'
      · rw [h', hv]
      · exfalso
        have : q.1 ∈ rest.map Prod.fst := by
          rw [hq, ← hpk]
          exact List.mem_map_of_mem Prod.fst h'
        exact (List.nodup_cons.mp (by simpa using hnd)).1 this
    · have hfind : assoc_get (q :: rest) k = assoc_get rest k := by
        unfold assoc_get
        rw [List.find?_cons_of_neg _ (by simp [hq])]
      rcases List.mem_cons.mp hp with h' | h'
      · exact absurd (h' ▸ hpk) hq
      · exact ih (List.nodup_cons.mp (by simpa using hnd)).2 (hfind ▸ h) p h' hpk

theorem assoc_set_entry_nodup (l : List (ℤ × ℤ)) (k v : ℤ)
    (hnd : (l.map Prod.fst).Nodup) :
    ∀ p ∈ assoc_set l k v, p.1 = k → p.2 = v := by
  induction l with
  | nil =>
    intro p hp hpk
    have hpe : p = (k, v) := by simpa [assoc_set] using hp
    rw [hpe]
  | cons q rest ih =>
    intro p hp hpk
    by_cases hq : q.1 = k
    · rw [assoc_set, if_pos hq] at hp
      rcases List.mem_cons.mp hp with h' | h'
      · rw [h']
      · exfalso
        have : q.1 ∈ rest.map Prod.fst := by
          rw [hq, ← hpk]
          exact List.mem_map_of_mem Prod.fst h'
        exact (List.nodup_cons.mp (by simpa using hnd)).1 this
    · rw [assoc_set, if_neg hq] at hp
      rcases List.mem_cons.mp hp with h' | h'
      · exact absurd (h' ▸ hpk) hq
      · exact ih (List.nodup_cons.mp (by simpa using hnd)).2 p h' hpk

theorem assoc_set_keys_of_get (l : List (ℤ × ℤ)) (k v w : ℤ)
    (h : assoc_get l k = some w) :
    (assoc_set l k v).map Prod.fst = l.map Prod.fst := by
  induction l with
  | nil => simp [assoc_get] at h
  | cons q rest ih =>
    by_cases hq : q.1 = k
    · rw [assoc_set, if_pos hq]
      simp [hq]
    · have hfind : assoc_get (q :: rest) k = assoc_get rest k := by
        unfold assoc_get
        rw [List.find?_cons_of_neg _ (by simp [hq])]
      rw [assoc_set, if_neg hq]
      simp only [List.map_cons]
      rw [ih (hfind ▸ h)]

/-! ### Laser clamp stage lemmas -/
theorem laser_clamp_values_keys (cfg : SafetyConfig) (f : FixtureConfig)
    (vals : List (ℤ × ℤ)) :
    (laser_clamp_values cfg f vals).map Prod.fst = vals.map Prod.fst := by
  simp only [laser_clamp_values]
  cases hy : assoc_get vals (f.start_address + cfg.laser.y_channel_offset) with
  | none =>
    simp only [hy]
    cases hs : assoc_get vals (f.start_address + cfg.laser.speed_channel_offset) with
    | none => simp only [hs]
    | some w =>
      simp only [hs]
      split_ifs
      · exact assoc_set_keys_of_get _ _ _ _ hs
      · rfl
  | some v =>
    simp only [hy]
    split_ifs with hv
    · have hkeys := assoc_set_keys_of_get vals
        (f.start_address + cfg.laser.y_channel_offset) (cfg.laser.y_axis_max : ℤ) v hy
      cases hs : assoc_get (assoc_set vals (f.start_address + cfg.laser.y_channel_offset)
          (cfg.laser.y_axis_max : ℤ)) (f.start_address + cfg.laser.speed_channel_offset) with
      | none => simp only [hs]; exact hkeys
      | some w =>
        simp only [hs]
        split_ifs
        · rw [assoc_set_keys_of_get _ _ _ _ hs, hkeys]
        · exact hkeys
    · cases hs : assoc_get vals (f.start_address + cfg.laser.speed_channel_offset) with
      | none => simp only [hs]
      | some w =>
        simp only [hs]
        split_ifs
        · exact assoc_set_keys_of_get _ _ _ _ hs
        · rfl

theorem laser_clamp_values_y_le (cfg : SafetyConfig) (f : FixtureConfig)
    (vals : List (ℤ × ℤ)) (hnd : (vals.map Prod.fst).Nodup)
    (hneq : f.start_address + cfg.laser.speed_channel_offset ≠
      f.start_address + cfg.laser.y_channel_offset) :
    ∀ p ∈ laser_clamp_values cfg f vals,
      p.1 = f.start_address + cfg.laser.y_channel_offset →
      p.2 ≤ (cfg.laser.y_axis_max : ℤ) := by
  intro p hp hpk
  simp only [laser_clamp_values] at hp
  cases hy : assoc_get vals (f.start_address + cfg.laser.y_channel_offset) with
  | none =>
    simp only [hy] at hp
    have hp' : p ∈ vals := by
      cases hs : assoc_get vals (f.start_address + cfg.laser.speed_channel_offset) with
      | none => simpa [hs] using hp
      | some w =>
        simp only [hs] at hp
        split_ifs at hp
        · exact mem_assoc_set_ne _ _ _ _ hp (by rw [hpk]; exact Ne.symm hneq)
        · exact hp
    exact absurd hpk (assoc_get_none_not_mem vals _ hy p hp')
  | some v =>
    simp only [hy] at hp
    split_ifs at hp with hv
    · have hp' : p ∈ assoc_set vals (f.start_address + cfg.laser.y_channel_offset)
          (cfg.laser.y_axis_max : ℤ) := by
        cases hs : assoc_get (assoc_set vals (f.start_address + cfg.laser.y_channel_offset)
            (cfg.laser.y_axis_max : ℤ)) (f.start_address + cfg.laser.speed_channel_offset) with
        | none => simpa [hs] using hp
        | some w =>
          simp only [hs] at hp
          split_ifs at hp
          · exact mem_assoc_set_ne _ _ _ _ hp (by rw [hpk]; exact Ne.symm hneq)
          · exact hp
      have hval := assoc_set_entry_nodup vals _ (cfg.laser.y_axis_max : ℤ) hnd p hp' hpk
      rw [hval]
    · have hp' : p ∈ vals := by
        cases hs : assoc_get vals (f.start_address + cfg.laser.speed_channel_offset) with
        | none => simpa [hs] using hp
        | some w =>
          simp only [hs] at hp
          split_ifs at hp
          · exact mem_assoc_set_ne _ _ _ _ hp (by rw [hpk]; exact Ne.symm hneq)
          · exact hp
      have hval := assoc_get_eq_of_nodup vals _ v hnd hy p hp' hpk
      rw [hval]
      omega

theorem laser_clamp_values_y_pres (cfg : SafetyConfig) (f' : FixtureConfig)
    (vals : List (ℤ × ℤ)) (y m : ℤ) (hm : (cfg.laser.y_axis_max : ℤ) ≤ m)
    (hneq : f'.start_address + cfg.laser.speed_channel_offset ≠ y)
    (hP : ∀ p ∈ vals, p.1 = y → p.2 ≤ m) :
    ∀ p ∈ laser_clamp_values cfg f' vals, p.1 = y → p.2 ≤ m := by
  intro p hp hpk
  simp only [laser_clamp_values] at hp
  cases hy : assoc_get vals (f'.start_address + cfg.laser.y_channel_offset) with
  | none =>
    simp only [hy] at hp
    cases hs : assoc_get vals (f'.start_address + cfg.laser.speed_channel_offset) with
    | none => exact hP p (by simpa [hs] using hp) hpk
    | some w =>
      simp only [hs] at hp
      split_ifs at hp
      · exact hP p (mem_assoc_set_ne _ _ _ _ hp (by rw [hpk]; exact Ne.symm hneq)) hpk
      · exact hP p hp hpk
  | some v =>
    simp only [hy] at hp
    split_ifs at hp with hv
    · have hP1 : ∀ q ∈ assoc_set vals (f'.start_address + cfg.laser.y_channel_offset)
          (cfg.laser.y_axis_max : ℤ), q.1 = y → q.2 ≤ m := by
        intro q hq hqk
        rcases mem_assoc_set _ _ _ _ hq with h' | h'
        · rw [h']; exact hm
        · exact hP q h' hqk
      cases hs : assoc_get (assoc_set vals (f'.start_address + cfg.laser.y_channel_offset)
          (cfg.laser.y_axis_max : ℤ)) (f'.start_address + cfg.laser.speed_channel_offset) with
      | none => exact hP1 p (by simpa [hs] using hp) hpk
      | some w =>
        simp only [hs] at hp
        split_ifs at hp
        · exact hP1 p (mem_assoc_set_ne _ _ _ _ hp (by rw [hpk]; exact Ne.symm hneq)) hpk
        · exact hP1 p hp hpk
    · cases hs : assoc_get vals (f'.start_address + cfg.laser.speed_channel_offset) with
      | none => exact hP p (by simpa [hs] using hp) hpk
      | some w =>
        simp only [hs] at hp
        split_ifs at hp
        · exact hP p (mem_assoc_set_ne _ _ _ _ hp (by rw [hpk]; exact Ne.symm hneq)) hpk
        · exact hP p hp hpk

theorem laser_clamp_universe_one_y_le (cfg : SafetyConfig) (f : FixtureConfig)
    (u : Universe)
    (hvalid : is_valid_dmx_channel (f.start_address + cfg.laser.y_channel_offset) = true)
    (hneq : f.start_address + cfg.laser.speed_channel_offset ≠
      f.start_address + cfg.laser.y_channel_offset) :
    laser_clamp_universe_one cfg f u (f.start_address + cfg.laser.y_channel_offset) ≤
      cfg.laser.y_axis_max := by
  simp only [laser_clamp_universe_one]
  by_cases h1 : is_valid_dmx_channel (f.start_address + cfg.laser.y_channel_offset) ∧
      u (f.start_address + cfg.laser.y_channel_offset) > cfg.laser.y_axis_max
  · rw [if_pos h1]
    split_ifs with h2
    · rw [uset_other _ _ _ _ (Ne.symm hneq), uset_same]
    · rw [uset_same]
  · rw [if_neg h1]
    have hle : u (f.start_address + cfg.laser.y_channel_offset) ≤ cfg.laser.y_axis_max := by
      by_contra hgt
      exact h1 ⟨hvalid, by omega⟩
    split_ifs with h2
    · rw [uset_other _ _ _ _ (Ne.symm hneq)]; exact hle
    · exact hle

theorem laser_clamp_universe_one_y_pres (cfg : SafetyConfig) (f' : FixtureConfig)
    (u : Universe) (y : ℤ) (m : ℕ) (hm : cfg.laser.y_axis_max ≤ m)
    (hneq : f'.start_address + cfg.laser.speed_channel_offset ≠ y)
    (hP : u y ≤ m) : laser_clamp_universe_one cfg f' u y ≤ m := by
  simp only [laser_clamp_universe_one]
  by_cases h1 : is_valid_dmx_channel (f'.start_address + cfg.laser.y_channel_offset) ∧
      u (f'.start_address + cfg.laser.y_channel_offset) > cfg.laser.y_axis_max
  · rw [if_pos h1]
    have hu1 : uset u (f'.start_address + cfg.laser.y_channel_offset)
        cfg.laser.y_axis_max y ≤ m := by
      by_cases hyy : y = f'.start_address + cfg.laser.y_channel_offset
      · rw [hyy, uset_same]; exact hm
      · rw [uset_other _ _ _ _ hyy]; exact hP
    split_ifs with h2
    · rw [uset_other _ _ _ _ (Ne.symm hneq)]; exact hu1
    · exact hu1
  · rw [if_neg h1]
    split_ifs with h2
    · rw [uset_other _ _ _ _ (Ne.symm hneq)]; exact hP
    · exact hP

theorem laser_clamp_univ_fold_pres (cfg : SafetyConfig) (y : ℤ) (m : ℕ)
    (hm : cfg.laser.y_axis_max ≤ m) :
    ∀ (l : List FixtureConfig) (u : Universe),
      (∀ f' ∈ l, f'.enabled = true →
        f'.start_address + cfg.laser.speed_channel_offset ≠ y) →
      u y ≤ m → (l.foldl (laser_clamp_univ_step cfg) u) y ≤ m := by
  intro l
  induction l with
  | nil => intro u _ h; exact h
  | cons f rest ih =>
    intro u hsep hP
    rw [List.foldl_cons]
    refine ih _ (fun f' hf' => hsep f' (List.mem_cons_of_mem _ hf')) ?_
    unfold laser_clamp_univ_step
    by_cases he : f.enabled = true
    · rw [if_pos he]
      exact laser_clamp_universe_one_y_pres cfg f u y m hm
        (hsep f (List.mem_cons_self _ _) he) hP
    · rw [if_neg he]; exact hP

theorem laser_clamp_univ_y_le (cfg : SafetyConfig) (fixtures : List FixtureConfig)
    (u : Universe) (f : FixtureConfig) (hf : f ∈ fixtures) (htype : f.type = "laser")
    (hen : f.enabled = true)
    (hvalid : is_valid_dmx_channel (f.start_address + cfg.laser.y_channel_offset) = true)
    (hsep : ∀ f' ∈ fixtures, f'.type = "laser" → f'.enabled = true →
      f'.start_address + cfg.laser.speed_channel_offset ≠
        f.start_address + cfg.laser.y_channel_offset) :
    laser_clamp_univ cfg fixtures u (f.start_address + cfg.laser.y_channel_offset) ≤
      cfg.laser.y_axis_max := by
  unfold laser_clamp_univ
  have hmem : f ∈ fixtures.filter (fun f => f.type = "laser") :=
    List.mem_filter.mpr ⟨hf, by simp [htype]⟩
  obtain ⟨l1, l2, hsplit⟩ := List.append_of_mem hmem
  rw [hsplit, List.foldl_append, List.foldl_cons]
  have hstep : laser_clamp_univ_step cfg
      (l1.foldl (laser_clamp_univ_step cfg) u) f
      (f.start_address + cfg.laser.y_channel_offset) ≤ cfg.laser.y_axis_max := by
    unfold laser_clamp_univ_step
    rw [if_pos hen]
    exact laser_clamp_universe_one_y_le cfg f _ hvalid (hsep f hf htype hen)
  refine laser_clamp_univ_fold_pres cfg _ _ (le_refl _) l2 _ ?_ hstep
  intro f' hf' hen'
  have hf'mem : f' ∈ fixtures.filter (fun g => g.type = "laser") := by
    rw [hsplit]; exact List.mem_append_right _ (List.mem_cons_of_mem _ hf')
  have hmf := List.mem_filter.mp hf'mem
  exact hsep f' hmf.1 (by simpa using hmf.2) hen'

theorem laser_clamp_step_nodup (cfg : SafetyConfig) (f'' : FixtureConfig)
    (cs : List FixtureCommand)
    (hN : ∀ cmd ∈ cs, (cmd.channel_values.map Prod.fst).Nodup) :
    ∀ cmd ∈ laser_clamp_step cfg cs f'',
      (cmd.channel_values.map Prod.fst).Nodup := by
  intro cmd' hc
  unfold laser_clamp_step at hc
  split_ifs at hc with he
  · obtain ⟨cmd, hcm, hfc⟩ := List.mem_map.mp hc
    by_cases hid : cmd.fixture_id = f''.id
    · rw [← hfc, if_pos hid]
      simpa [laser_clamp_values_keys] using hN cmd hcm
    · rw [← hfc, if_neg hid]
      exact hN cmd hcm
  · exact hN cmd' hc

theorem laser_clamp_fold_nodup (cfg : SafetyConfig) :
    ∀ (l : List FixtureConfig) (cs : List FixtureCommand),
      (∀ cmd ∈ cs, (cmd.channel_values.map Prod.fst).Nodup) →
      ∀ cmd ∈ l.foldl (laser_clamp_step cfg) cs,
        (cmd.channel_values.map Prod.fst).Nodup := by
  intro l
  induction l with
  | nil => intro cs h; exact h
  | cons f rest ih =>
    intro cs hN
    rw [List.foldl_cons]
    exact ih _ (laser_clamp_step_nodup cfg f cs hN)

theorem laser_clamp_step_y_est (cfg : SafetyConfig) (f : FixtureConfig)
    (cs : List FixtureCommand) (hen : f.enabled = true)
    (hneqf : f.start_address + cfg.laser.speed_channel_offset ≠
      f.start_address + cfg.laser.y_channel_offset)
    (hN : ∀ cmd ∈ cs, (cmd.channel_values.map Prod.fst).Nodup) :
    ∀ cmd ∈ laser_clamp_step cfg cs f, cmd.fixture_id = f.id →
      ∀ p ∈ cmd.channel_values,
        p.1 = f.start_address + cfg.laser.y_channel_offset →
        p.2 ≤ (cfg.laser.y_axis_max : ℤ) := by
  intro cmd' hc hid'
  unfold laser_clamp_step at hc
  rw [if_pos hen] at hc
  obtain ⟨cmd, hcm, hfc⟩ := List.mem_map.mp hc
  by_cases hid : cmd.fixture_id = f.id
  · rw [← hfc]
    simp only [if_pos hid]
    exact laser_clamp_values_y_le cfg f cmd.channel_values (hN cmd hcm) hneqf
  · exfalso
    rw [← hfc, if_neg hid] at hid'
    exact hid hid'

theorem laser_clamp_step_y_pres (cfg : SafetyConfig) (f'' f : FixtureConfig)
    (cs : List FixtureCommand)
    (hneq'' : f''.enabled = true →
      f''.start_address + cfg.laser.speed_channel_offset ≠
        f.start_address + cfg.laser.y_channel_offset)
    (hP : ∀ cmd ∈ cs, cmd.fixture_id = f.id →
      ∀ p ∈ cmd.channel_values,
        p.1 = f.start_address + cfg.laser.y_channel_offset →
        p.2 ≤ (cfg.laser.y_axis_max : ℤ)) :
    ∀ cmd ∈ laser_clamp_step cfg cs f'', cmd.fixture_id = f.id →
      ∀ p ∈ cmd.channel_values,
        p.1 = f.start_address + cfg.laser.y_channel_offset →
        p.2 ≤ (cfg.laser.y_axis_max : ℤ) := by
  intro cmd' hc hid'
  unfold laser_clamp_step at hc
  split_ifs at hc with he
  · obtain ⟨cmd, hcm, hfc⟩ := List.mem_map.mp hc
    by_cases hid : cmd.fixture_id = f''.id
    · rw [← hfc] at hid' ⊢
      simp only [if_pos hid] at hid' ⊢
      exact laser_clamp_values_y_pres cfg f'' cmd.channel_values _ _ (le_refl _)
        (hneq'' he) (hP cmd hcm hid')
    · rw [← hfc] at hid' ⊢
      simp only [if_neg hid] at hid' ⊢
      exact hP cmd hcm hid'
  · exact hP cmd' hc hid'

theorem laser_clamp_fold_y_pres (cfg : SafetyConfig) (f : FixtureConfig) :
    ∀ (l : List FixtureConfig) (cs : List FixtureCommand),
      (∀ f'' ∈ l, f''.enabled = true →
        f''.start_address + cfg.laser.speed_channel_offset ≠
          f.start_address + cfg.laser.y_channel_offset) →
      (∀ cmd ∈ cs, cmd.fixture_id = f.id →
        ∀ p ∈ cmd.channel_values,
          p.1 = f.start_address + cfg.laser.y_channel_offset →
          p.2 ≤ (cfg.laser.y_axis_max : ℤ)) →
      ∀ cmd ∈ l.foldl (laser_clamp_step cfg) cs, cmd.fixture_id = f.id →
        ∀ p ∈ cmd.channel_values,
          p.1 = f.start_address + cfg.laser.y_channel_offset →
          p.2 ≤ (cfg.laser.y_axis_max : ℤ) := by
  intro l
  induction l with
  | nil => intro cs _ h; exact h
  | cons f'' rest ih =>
    intro cs hsep hP
    rw [List.foldl_cons]
    exact ih _ (fun g hg => hsep g (List.mem_cons_of_mem _ hg))
      (laser_clamp_step_y_pres cfg f'' f cs (hsep f'' (List.mem_cons_self _ _)) hP)

theorem laser_clamp_cmds_y_le (cfg : SafetyConfig) (fixtures : List FixtureConfig)
    (cmds : List FixtureCommand) (f : FixtureConfig)
    (hf : f ∈ fixtures) (htype : f.type = "laser") (hen : f.enabled = true)
    (hkeys : ∀ cmd ∈ cmds, (cmd.channel_values.map Prod.fst).Nodup)
    (hsep : ∀ f' ∈ fixtures, f'.type = "laser" → f'.enabled = true →
      f'.start_address + cfg.laser.speed_channel_offset ≠
        f.start_address + cfg.laser.y_channel_offset) :
    ∀ cmd ∈ laser_clamp_cmds cfg fixtures cmds, cmd.fixture_id = f.id →
      ∀ p ∈ cmd.channel_values,
        p.1 = f.start_address + cfg.laser.y_channel_offset →
        p.2 ≤ (cfg.laser.y_axis_max : ℤ) := by
  unfold laser_clamp_cmds
  have hmem : f ∈ fixtures.filter (fun g => g.type = "laser") :=
    List.mem_filter.mpr ⟨hf, by simp [htype]⟩
  obtain ⟨l1, l2, hsplit⟩ := List.append_of_mem hmem
  rw [hsplit, List.foldl_append, List.foldl_cons]
  have hN1 := laser_clamp_fold_nodup cfg l1 cmds hkeys
  have hest := laser_clamp_step_y_est cfg f (l1.foldl (laser_clamp_step cfg) cmds)
    hen (hsep f hf htype hen) hN1
  refine laser_clamp_fold_y_pres cfg f l2 _ ?_ hest
  intro f'' hf'' hen''
  have hf''mem : f'' ∈ fixtures.filter (fun g => g.type = "laser") := by
    rw [hsplit]; exact List.mem_append_right _ (List.mem_cons_of_mem _ hf'')
  have hmf := List.mem_filter.mp hf''mem
  exact hsep f'' hmf.1 (by simpa using hmf.2) hen''

/-! ### Strobe guard and degradation structural lemmas -/
set_option maxHeartbeats 2000000 in
theorem apply_strobe_guards_cmds_cases (cfg : SafetyConfig) (channels : List ℤ)
    (st : InterlockState) (cmds : List FixtureCommand) (u : Universe) (t : ℚ) :
    (apply_strobe_guards cfg channels st cmds u t).cmds = cmds ∨
    (apply_strobe_guards cfg channels st cmds u t).cmds =
      cmds.map (fun cmd =>
        { cmd with channel_values := cmd.channel_values.map (fun p =>
            if channels.contains p.1 then (p.1, 0) else p) }) := by
  simp only [apply_strobe_guards]
  split_ifs <;> first | exact Or.inl rfl | exact Or.inr rfl

set_option maxHeartbeats 2000000 in
theorem apply_strobe_guards_univ_cases (cfg : SafetyConfig) (channels : List ℤ)
    (st : InterlockState) (cmds : List FixtureCommand) (u : Universe) (t : ℚ) :
    (apply_strobe_guards cfg channels st cmds u t).u = u ∨
    (apply_strobe_guards cfg channels st cmds u t).u =
      fun ch => if channels.contains ch ∧ is_valid_dmx_channel ch then 0 else u ch := by
  simp only [apply_strobe_guards]
  split_ifs <;> first | exact Or.inl rfl | exact Or.inr rfl

theorem pyInt_scaled_le (v : ℤ) (scale : ℚ) (hv : 0 < v) (hs : scale ≤ 1) :
    0 ≤ pyInt (max 0 (min 255 ((v : ℚ) * scale))) ∧
    pyInt (max 0 (min 255 ((v : ℚ) * scale))) ≤ v := by
  have hq0 : (0 : ℚ) ≤ max 0 (min 255 ((v : ℚ) * scale)) := le_max_left _ _
  have hqv : max 0 (min 255 ((v : ℚ) * scale)) ≤ (v : ℚ) := by
    have h1 : min 255 ((v : ℚ) * scale) ≤ (v : ℚ) * scale := min_le_right _ _
    have h2 : (v : ℚ) * scale ≤ (v : ℚ) := by
      calc (v : ℚ) * scale ≤ (v : ℚ) * 1 := by
            apply mul_le_mul_of_nonneg_left hs
            exact_mod_cast le_of_lt hv
        _ = (v : ℚ) := mul_one _
    refine max_le ?_ (h1.trans h2)
    exact_mod_cast le_of_lt hv
  unfold pyInt
  rw [if_pos hq0]
  constructor
  · exact Int.le_floor.mpr (by exact_mod_cast hq0)
  · calc ⌊max 0 (min 255 ((v : ℚ) * scale))⌋ ≤ ⌊(v : ℚ)⌋ := Int.floor_le_floor hqv
      _ = v := Int.floor_intCast v

theorem apply_graceful_degradation_cmds_rel (cfg : SafetyConfig)
    (fixtures : List FixtureConfig) (cmds : List FixtureCommand) (u : Universe)
    (conf : ℚ) :
    ∀ cmd' ∈ (apply_graceful_degradation cfg fixtures cmds u conf).1,
      ∃ cmd ∈ cmds, cmd'.fixture_id = cmd.fixture_id ∧
        ∀ p ∈ cmd'.channel_values, ∃ q ∈ cmd.channel_values,
          p.1 = q.1 ∧ (p.2 = q.2 ∨ (0 < q.2 ∧ 0 ≤ p.2 ∧ p.2 ≤ q.2)) := by
  simp only [apply_graceful_degradation]
  split_ifs with hscale
  · intro cmd' hc
    exact ⟨cmd', hc, rfl, fun p hp => ⟨p, hp, rfl, Or.inl rfl⟩⟩
  · intro cmd' hc
    obtain ⟨cmd, hcm, hfc⟩ := List.mem_map.mp hc
    refine ⟨cmd, hcm, by rw [← hfc], ?_⟩
    intro p hp
    rw [← hfc] at hp
    simp only at hp
    obtain ⟨q, hq, hpq⟩ := List.mem_map.mp hp
    by_cases hcond : ((fixtures.filter (fun f => f.type = "laser")).map
        (fun f => f.start_address)).contains q.1 ∨ q.2 ≤ 0
    · rw [if_pos hcond] at hpq
      exact ⟨q, hq, by rw [← hpq], Or.inl (by rw [← hpq])⟩
    · rw [if_neg hcond] at hpq
      push_neg at hcond
      have hq2 : 0 < q.2 := by omega
      have hsle : max (7/20 : ℚ)
          (max 0 (min 1 (conf / max cfg.min_beat_confidence (1/1000000)))) ≤ 1 := by
        rw [not_le] at hscale
        exact le_of_lt (lt_of_lt_of_le hscale (by norm_num))
      have := pyInt_scaled_le q.2 _ hq2 hsle
      exact ⟨q, hq, by rw [← hpq], Or.inr ⟨hq2, by rw [← hpq]; exact this.1,
        by rw [← hpq]; exact this.2⟩⟩

theorem apply_graceful_degradation_univ_rel (cfg : SafetyConfig)
    (fixtures : List FixtureConfig) (cmds : List FixtureCommand) (u : Universe)
    (conf : ℚ) :
    ∀ ch, (apply_graceful_degradation cfg fixtures cmds u conf).2.1 ch = u ch ∨
      (0 < u ch ∧ (apply_graceful_degradation cfg fixtures cmds u conf).2.1 ch ≤ u ch) := by
  simp only [apply_graceful_degradation]
  split_ifs with hscale
  · intro ch; exact Or.inl rfl
  · intro ch
    by_cases hcond : 1 ≤ ch ∧ ch ≤ 512 ∧ ((fixtures.filter (fun f => f.type = "laser")).map
        (fun f => f.start_address)).contains ch = false ∧ u ch > 0
    · simp only [if_pos hcond]
      right
      refine ⟨hcond.2.2.2, ?_⟩
      have hsle : max (7/20 : ℚ)
          (max 0 (min 1 (conf / max cfg.min_beat_confidence (1/1000000)))) ≤ 1 := by
        rw [not_le] at hscale
        exact le_of_lt (lt_of_lt_of_le hscale (by norm_num))
      have hlt := pyInt_scaled_le (u ch : ℤ) _ (by exact_mod_cast hcond.2.2.2) hsle
      rw [show (((u ch : ℤ) : ℚ)) = ((u ch : ℕ) : ℚ) by push_cast; ring] at hlt
      omega
    · simp only [if_neg hcond]
      exact Or.inl trivial

set_option maxHeartbeats 2000000 in
theorem interlock_call_out_decomp (cfg : SafetyConfig) (fixtures : List FixtureConfig)
    (st : InterlockState) (input : TickInput) :
    ∃ u0 : Universe,
      ((interlock_call cfg fixtures st input).out.fixture_commands =
          (apply_strobe_guards cfg (derive_strobe_channels fixtures)
            { st with last_heartbeat := input.timestamp }
            (laser_clamp_cmds cfg fixtures input.fixture_commands)
            (laser_clamp_univ cfg fixtures u0) input.timestamp).cmds ∧
        (interlock_call cfg fixtures st input).out.dmx_universe =
          (apply_strobe_guards cfg (derive_strobe_channels fixtures)
            { st with last_heartbeat := input.timestamp }
            (laser_clamp_cmds cfg fixtures input.fixture_commands)
            (laser_clamp_univ cfg fixtures u0) input.timestamp).u) ∨
      ((interlock_call cfg fixtures st input).out.fixture_commands =
          (apply_graceful_degradation cfg fixtures
            (apply_strobe_guards cfg (derive_strobe_channels fixtures)
              { st with last_heartbeat := input.timestamp }
              (laser_clamp_cmds cfg fixtures input.fixture_commands)
              (laser_clamp_univ cfg fixtures u0) input.timestamp).cmds
            (apply_strobe_guards cfg (derive_strobe_channels fixtures)
              { st with last_heartbeat := input.timestamp }
              (laser_clamp_cmds cfg fixtures input.fixture_commands)
              (laser_clamp_univ cfg fixtures u0) input.timestamp).u
            input.beat_confidence).1 ∧
        (interlock_call cfg fixtures st input).out.dmx_universe =
          (apply_graceful_degradation cfg fixtures
            (apply_strobe_guards cfg (derive_strobe_channels fixtures)
              { st with last_heartbeat := input.timestamp }
              (laser_clamp_cmds cfg fixtures input.fixture_commands)
              (laser_clamp_univ cfg fixtures u0) input.timestamp).cmds
            (apply_strobe_guards cfg (derive_strobe_channels fixtures)
              { st with last_heartbeat := input.timestamp }
              (laser_clamp_cmds cfg fixtures input.fixture_commands)
              (laser_clamp_univ cfg fixtures u0) input.timestamp).u
            input.beat_confidence).2.1) := by
  refine ⟨if st.emergency_stop then create_universe_buffer
    else if decide (input.timestamp - st.last_heartbeat > cfg.heartbeat_timeout_s) then
      create_universe_buffer
    else input.dmx_universe, ?_⟩
  simp only [interlock_call]
  by_cases hdeg : (decide (input.beat_confidence < cfg.min_beat_confidence) &&
      cfg.graceful_degradation) = true
  · rw [if_pos hdeg]
    right
    exact ⟨rfl, rfl⟩
  · rw [if_neg hdeg]
    left
    exact ⟨rfl, rfl⟩

/-- Claim C1 (amended): for every ENABLED laser fixture — check 3 skips
disabled ones — whose y channel does not coincide with any enabled laser
fixture's scan-speed channel, a tick of the interlock leaves the committed
value on the fixture's y channel at most `y_axis_max`, both in that
fixture's commands and (for a valid DMX channel index) in the universe
written back, regardless of the requested magnitudes. -/
theorem C1_y_axis_clamped (cfg : SafetyConfig) (fixtures : List FixtureConfig)
    (st : InterlockState) (input : TickInput) (f : FixtureConfig)
    (hf : f ∈ fixtures) (htype : f.type = "laser") (hen : f.enabled = true)
    (hkeys : ∀ cmd ∈ input.fixture_commands, (cmd.channel_values.map Prod.fst).Nodup)
    (hsep : ∀ f' ∈ fixtures, f'.type = "laser" → f'.enabled = true →
      f'.start_address + cfg.laser.speed_channel_offset ≠
        f.start_address + cfg.laser.y_channel_offset) :
    (∀ cmd ∈ (interlock_call cfg fixtures st input).out.fixture_commands,
      cmd.fixture_id = f.id → ∀ p ∈ cmd.channel_values,
        p.1 = f.start_address + cfg.laser.y_channel_offset →
        p.2 ≤ (cfg.laser.y_axis_max : ℤ)) ∧
    (is_valid_dmx_channel (f.start_address + cfg.laser.y_channel_offset) = true →
      (interlock_call cfg fixtures st input).out.dmx_universe
        (f.start_address + cfg.laser.y_channel_offset) ≤ cfg.laser.y_axis_max) := by
  obtain ⟨u0, hcases⟩ := interlock_call_out_decomp cfg fixtures st input
  have hA := laser_clamp_cmds_y_le cfg fixtures input.fixture_commands f
    hf htype hen hkeys hsep
  -- property after the strobe guard stage
  have hB : ∀ cmd ∈ (apply_strobe_guards cfg (derive_strobe_channels fixtures)
      { st with last_heartbeat := input.timestamp }
      (laser_clamp_cmds cfg fixtures input.fixture_commands)
      (laser_clamp_univ cfg fixtures u0) input.timestamp).cmds,
      cmd.fixture_id = f.id → ∀ p ∈ cmd.channel_values,
        p.1 = f.start_address + cfg.laser.y_channel_offset →
        p.2 ≤ (cfg.laser.y_axis_max : ℤ) := by
    rcases apply_strobe_guards_cmds_cases cfg (derive_strobe_channels fixtures)
        { st with last_heartbeat := input.timestamp }
        (laser_clamp_cmds cfg fixtures input.fixture_commands)
        (laser_clamp_univ cfg fixtures u0) input.timestamp with hc | hc
    · rw [hc]; exact hA
    · rw [hc]
      intro cmd' hcm' hid' p hp hpk
      obtain ⟨cmd, hcm, hfc⟩ := List.mem_map.mp hcm'
      rw [← hfc] at hid' hp
      obtain ⟨q, hq, hpq⟩ := List.mem_map.mp hp
      by_cases hcont : (derive_strobe_channels fixtures).contains q.1
      · rw [if_pos hcont] at hpq
        rw [← hpq]
        show (0 : ℤ) ≤ (cfg.laser.y_axis_max : ℤ)
        exact Int.natCast_nonneg _
      · rw [if_neg hcont] at hpq
        rw [← hpq]
        exact hA cmd hcm hid' q hq (by rw [hpq]; exact hpk)
  have hBu : is_valid_dmx_channel (f.start_address + cfg.laser.y_channel_offset) = true →
      (apply_strobe_guards cfg (derive_strobe_channels fixtures)
        { st with last_heartbeat := input.timestamp }
        (laser_clamp_cmds cfg fixtures input.fixture_commands)
        (laser_clamp_univ cfg fixtures u0) input.timestamp).u
        (f.start_address + cfg.laser.y_channel_offset) ≤ cfg.laser.y_axis_max := by
    intro hvalid
    have hAu := laser_clamp_univ_y_le cfg fixtures u0 f hf htype hen hvalid hsep
    rcases apply_strobe_guards_univ_cases cfg (derive_strobe_channels fixtures)
        { st with last_heartbeat := input.timestamp }
        (laser_clamp_cmds cfg fixtures input.fixture_commands)
        (laser_clamp_univ cfg fixtures u0) input.timestamp with hc | hc
    · rw [hc]; exact hAu
    · rw [hc]
      show (if (derive_strobe_channels fixtures).contains
          (f.start_address + cfg.laser.y_channel_offset) ∧
          is_valid_dmx_channel (f.start_address + cfg.laser.y_channel_offset) then 0
        else laser_clamp_univ cfg fixtures u0
          (f.start_address + cfg.laser.y_channel_offset)) ≤ cfg.laser.y_axis_max
      split_ifs with hz
      · exact Nat.zero_le _
      · exact hAu
  rcases hcases with ⟨hcmds, huniv⟩ | ⟨hcmds, huniv⟩
  · exact ⟨by rw [hcmds]; exact hB, fun hvalid => by rw [huniv]; exact hBu hvalid⟩
  · constructor
    · rw [hcmds]
      intro cmd' hcm' hid' p hp hpk
      obtain ⟨cmd, hcm, hideq, hrel⟩ := apply_graceful_degradation_cmds_rel cfg fixtures
        _ _ input.beat_confidence cmd' hcm'
      obtain ⟨q, hq, hk, hval⟩ := hrel p hp
      have hq2 : q.2 ≤ (cfg.laser.y_axis_max : ℤ) :=
        hB cmd hcm (hideq ▸ hid') q hq (hk ▸ hpk)
      rcases hval with h' | h'
      · rw [h']; exact hq2
      · exact h'.2.2.trans hq2
    · intro hvalid
      rw [huniv]
      rcases apply_graceful_degradation_univ_rel cfg fixtures _ _ input.beat_confidence
        (f.start_address + cfg.laser.y_channel_offset) with h' | h'
      · rw [h']; exact hBu hvalid
      · exact h'.2.trans (hBu hvalid)

/-- Claim C1 is false as stated: check 3 skips disabled fixtures
(safety_interlock.py line 203), so a DISABLED laser fixture with a
configured y channel (start 1 + offset 3 = channel 4, `y_axis_max = 100`)
passes through a tick with its requested 255 intact, in both the tick's
fixture commands and the universe written back to state. -/
theorem C1_counterexample :
    (interlock_call ⟨⟨100, 30, 3, 4⟩, ⟨10, 5, 2⟩, 1, 3/10, true⟩ [⟨"l1", "laser", 1, false⟩]
        ⟨0, [], none, false, 0, false, false⟩
        ⟨0, [⟨"l1", "laser", [(4, 255)]⟩], fun _ => 255, 1⟩).out.fixture_commands =
      [⟨"l1", "laser", [(4, 255)]⟩] ∧
    (interlock_call ⟨⟨100, 30, 3, 4⟩, ⟨10, 5, 2⟩, 1, 3/10, true⟩ [⟨"l1", "laser", 1, false⟩]
        ⟨0, [], none, false, 0, false, false⟩
        ⟨0, [⟨"l1", "laser", [(4, 255)]⟩], fun _ => 255, 1⟩).out.dmx_universe 4 = 255 ∧
    ¬((255 : ℤ) ≤ (100 : ℤ)) := by
  have hd1 : (decide ((0:ℚ) - 0 > 1)) = false := decide_eq_false (by norm_num)
  have hd2 : (decide ((1:ℚ) < 3/10)) = false := decide_eq_false (by norm_num)
  have hch : derive_strobe_channels [(⟨"l1", "laser", 1, false⟩ : FixtureConfig)] = [] := by
    decide
  have hcl : laser_clamp_cmds ⟨⟨100, 30, 3, 4⟩, ⟨10, 5, 2⟩, 1, 3/10, true⟩
      [⟨"l1", "laser", 1, false⟩] [⟨"l1", "laser", [(4, 255)]⟩] =
      [⟨"l1", "laser", [(4, 255)]⟩] := by decide
  refine ⟨?_, ?_, by norm_num⟩
  · simp only [interlock_call, hd1, hd2, hch, hcl, apply_strobe_guards]
    simp
  · simp only [interlock_call, hd1, hd2, hch, apply_strobe_guards]
    simp [laser_clamp_univ, laser_clamp_univ_step]

/-- Witness for C1 (amended): an enabled laser at start address 1 with the
default config — after a tick every y-channel (4 = 1+3) entry of its
commands is at most 100, and so is channel 4 of the written-back universe. -/
theorem C1_y_axis_clamped_witness :
    ((⟨"l1", "laser", 1, true⟩ : FixtureConfig) ∈
      [(⟨"l1", "laser", 1, true⟩ : FixtureConfig)]) ∧
    ((∀ cmd ∈ (interlock_call ⟨⟨100, 30, 3, 4⟩, ⟨10, 5, 2⟩, 1, 3/10, true⟩
          [⟨"l1", "laser", 1, true⟩] ⟨0, [], none, false, 0, false, false⟩
          ⟨0, [⟨"l1", "laser", [(4, 250)]⟩], fun _ => 0, 1⟩).out.fixture_commands,
        cmd.fixture_id = "l1" → ∀ p ∈ cmd.channel_values, p.1 = 1 + 3 →
          p.2 ≤ ((100 : ℕ) : ℤ)) ∧
      (is_valid_dmx_channel (1 + 3) = true →
        (interlock_call ⟨⟨100, 30, 3, 4⟩, ⟨10, 5, 2⟩, 1, 3/10, true⟩
          [⟨"l1", "laser", 1, true⟩] ⟨0, [], none, false, 0, false, false⟩
          ⟨0, [⟨"l1", "laser", [(4, 250)]⟩], fun _ => 0, 1⟩).out.dmx_universe (1 + 3) ≤ 100)) := by
  refine ⟨by decide, ?_⟩
  exact C1_y_axis_clamped ⟨⟨100, 30, 3, 4⟩, ⟨10, 5, 2⟩, 1, 3/10, true⟩
    [⟨"l1", "laser", 1, true⟩] ⟨0, [], none, false, 0, false, false⟩
    ⟨0, [⟨"l1", "laser", [(4, 250)]⟩], fun _ => 0, 1⟩ ⟨"l1", "laser", 1, true⟩
    (by decide) rfl rfl (by decide) (by decide)

set_option maxHeartbeats 2000000 in
theorem apply_strobe_guards_last_active (cfg : SafetyConfig) (channels : List ℤ)
    (st : InterlockState) (cmds : List FixtureCommand) (u : Universe) (t : ℚ)
    (hne : channels.isEmpty = false) :
    (apply_strobe_guards cfg channels st cmds u t).st.last_strobe_active =
      strobe_active_now channels cmds u := by
  set_option maxRecDepth 4000 in
  simp only [apply_strobe_guards, hne]
  split_ifs <;>
    first
      | rfl
      | exact ‹False›.elim

/-- Claim C9: when at least one strobe channel is known and the strobe is
detected active on every tick of a run starting from an inactive previous
tick, exactly one onset is recorded into the rate-limit window — the
transition tick's — no matter how many ticks the activity spans. -/
theorem C9_single_onset (cfg : SafetyConfig) (channels : List ℤ)
    (st : InterlockState) (inputs : List GuardInput)
    (hlast : st.last_strobe_active = false)
    (hne : channels.isEmpty = false)
    (hnonnil : inputs ≠ [])
    (hact : ∀ inp ∈ inputs, strobe_active_now channels inp.cmds inp.u = true) :
    count_onsets cfg channels st inputs = 1 := by
  have haux : ∀ (l : List GuardInput) (s : InterlockState),
      s.last_strobe_active = true →
      (∀ inp ∈ l, strobe_active_now channels inp.cmds inp.u = true) →
      count_onsets cfg channels s l = 0 := by
    intro l
    induction l with
    | nil => intro s _ _; rfl
    | cons inp rest ih =>
      intro s hs hacts
      unfold count_onsets
      rw [show onset_recorded channels s inp.cmds inp.u = false by
        unfold onset_recorded; rw [hs]; simp]
      have hlast' := apply_strobe_guards_last_active cfg channels s inp.cmds inp.u inp.t hne
      rw [hacts inp (List.mem_cons_self _ _)] at hlast'
      simpa using ih _ hlast' (fun i hi => hacts i (List.mem_cons_of_mem _ hi))
  cases inputs with
  | nil => exact absurd rfl hnonnil
  | cons inp rest =>
    unfold count_onsets
    have hrec : onset_recorded channels st inp.cmds inp.u = true := by
      unfold onset_recorded
      rw [hlast, hact inp (List.mem_cons_self _ _), hne]
      rfl
    rw [hrec]
    have hlast' := apply_strobe_guards_last_active cfg channels st inp.cmds inp.u inp.t hne
    rw [hact inp (List.mem_cons_self _ _)] at hlast'
    rw [haux rest _ hlast' (fun i hi => hact i (List.mem_cons_of_mem _ hi))]
    rfl

/-- Witness for C9: a panel strobe channel (14 = 10 + 4) held at 200 for
three consecutive ticks records exactly one onset. -/
theorem C9_single_onset_witness :
    ((⟨0, [], none, false, 0, false, false⟩ : InterlockState).last_strobe_active = false) ∧
    ([(14 : ℤ)].isEmpty = false) ∧
    (∀ inp ∈ [(⟨[⟨"p", "panel", [(14, 200)]⟩], fun _ => 0, 0⟩ : GuardInput),
        ⟨[⟨"p", "panel", [(14, 200)]⟩], fun _ => 0, 1/50⟩,
        ⟨[⟨"p", "panel", [(14, 200)]⟩], fun _ => 0, 2/50⟩],
      strobe_active_now [14] inp.cmds inp.u = true) ∧
    count_onsets ⟨⟨100, 30, 3, 4⟩, ⟨10, 5, 2⟩, 1, 3/10, true⟩ [14]
      ⟨0, [], none, false, 0, false, false⟩
      [⟨[⟨"p", "panel", [(14, 200)]⟩], fun _ => 0, 0⟩,
       ⟨[⟨"p", "panel", [(14, 200)]⟩], fun _ => 0, 1/50⟩,
       ⟨[⟨"p", "panel", [(14, 200)]⟩], fun _ => 0, 2/50⟩] = 1 := by
  refine ⟨rfl, rfl, ?_, ?_⟩
  · intro inp hinp
    rcases List.mem_cons.mp hinp with h | hinp
    · rw [h]; decide
    rcases List.mem_cons.mp hinp with h | hinp
    · rw [h]; decide
    rcases List.mem_cons.mp hinp with h | hinp
    · rw [h]; decide
    · exact absurd hinp (List.not_mem_nil inp)
  · refine C9_single_onset _ _ _ _ rfl rfl (by simp) ?_
    intro inp hinp
    rcases List.mem_cons.mp hinp with h | hinp
    · rw [h]; decide
    rcases List.mem_cons.mp hinp with h | hinp
    · rw [h]; decide
    rcases List.mem_cons.mp hinp with h | hinp
    · rw [h]; decide
    · exact absurd hinp (List.not_mem_nil inp)

/-! ### Graceful degradation exact behavior (C5) -/
theorem scale_formula (x : ℚ) :
    max (7/20 : ℚ) (max 0 (min 1 x)) = max (7/20) (min 1 x) := by
  rcases le_total 0 (min 1 x) with h | h
  · rw [max_eq_right h]
  · rw [max_eq_left h, max_eq_left (by norm_num : (0:ℚ) ≤ 7/20),
      max_eq_left (h.trans (by norm_num : (0:ℚ) ≤ 7/20))]

/-- Claim C5 is false as stated: the code truncates the scaled value with
Python `int()` (safety_interlock.py line 408); it does not round.  With
`min_beat_confidence = 0.8` and confidence 0.1 (scale 0.35), a
non-protected channel requested at 99 is committed at `int(34.65) = 34`,
while the claim's rounding gives `round(99 * 0.35) = 35`. -/
theorem C5_counterexample :
    (apply_graceful_degradation ⟨⟨100, 30, 3, 4⟩, ⟨10, 5, 2⟩, 1, 4/5, true⟩
        [⟨"l1", "laser", 1, true⟩] [⟨"x", "panel", [(50, 99)]⟩]
        (fun _ => 0) (1/10)).1 = [⟨"x", "panel", [(50, 34)]⟩] ∧
    round (((99 : ℤ) : ℚ) * max (7/20) (min 1 ((1/10) / (4/5)))) = 35 ∧
    (34 : ℤ) ≠ 35 := by
  have hsc : max (7/20 : ℚ) (max 0 (min 1 ((1/10) / max (4/5) (1/1000000)))) = 7/20 := by
    rw [max_eq_left (by norm_num : (1/1000000 : ℚ) ≤ 4/5)]
    norm_num [min_def, max_def]
  have hsc2 : max (7/20 : ℚ) (min 1 ((1/10) / (4/5))) = 7/20 := by
    norm_num [min_def, max_def]
  refine ⟨?_, ?_, by norm_num⟩
  · simp only [apply_graceful_degradation, hsc]
    rw [if_neg (by norm_num)]
    have hval : pyInt ((693 : ℚ)/20) = 34 := by
      unfold pyInt
      rw [if_pos (by norm_num : (0:ℚ) ≤ 693/20)]
      rw [Int.floor_eq_iff]
      norm_num
    simp only [List.map_cons, List.map_nil, List.filter_cons, List.filter_nil,
      List.contains_cons, List.contains_nil]
    norm_num [hval]
  · rw [hsc2, round_eq]
    rw [show ((99 : ℤ) : ℚ) * (7/20) + 1/2 = 703/20 by norm_num]
    rw [Int.floor_eq_iff]
    norm_num

/-- Claim C5 (amended): with the threshold effective (min_beat_confidence at
least 1e-6) the degradation stage computes scale = max(0.35, min(1,
confidence / min_beat_confidence)).  When scale is below 0.999, every
channel entry that is non-protected (protected = each laser fixture's start
address, enabled or not) and positive becomes int(max(0, min(255, value *
scale))) — truncation toward zero, not rounding — in the commands, and every
universe channel 1..512 that is non-protected and positive likewise; when
scale is at least 0.999 the stage is a no-op reporting scale 1. -/
theorem C5_graceful_degradation (cfg : SafetyConfig) (fixtures : List FixtureConfig)
    (cmds : List FixtureCommand) (u : Universe) (conf : ℚ)
    (hthr : (1/1000000 : ℚ) ≤ cfg.min_beat_confidence) :
    (max (7/20 : ℚ) (min 1 (conf / cfg.min_beat_confidence)) ≥ 999/1000 →
      apply_graceful_degradation cfg fixtures cmds u conf = (cmds, u, 1)) ∧
    (¬(max (7/20 : ℚ) (min 1 (conf / cfg.min_beat_confidence)) ≥ 999/1000) →
      (apply_graceful_degradation cfg fixtures cmds u conf).1 =
        cmds.map (fun cmd =>
          { cmd with
            channel_values := cmd.channel_values.map (fun p =>
              if ((fixtures.filter (fun f => f.type = "laser")).map
                  (fun f => f.start_address)).contains p.1 ∨ p.2 ≤ 0 then p
              else (p.1, pyInt (max 0 (min 255 ((p.2 : ℚ) *
                max (7/20) (min 1 (conf / cfg.min_beat_confidence))))))) }) ∧
      (∀ ch : ℤ, (apply_graceful_degradation cfg fixtures cmds u conf).2.1 ch =
        if 1 ≤ ch ∧ ch ≤ 512 ∧ ((fixtures.filter (fun f => f.type = "laser")).map
            (fun f => f.start_address)).contains ch = false ∧ u ch > 0 then
          (pyInt (max 0 (min 255 ((u ch : ℚ) *
            max (7/20) (min 1 (conf / cfg.min_beat_confidence)))))).toNat
        else u ch) ∧
      (apply_graceful_degradation cfg fixtures cmds u conf).2.2 =
        max (7/20) (min 1 (conf / cfg.min_beat_confidence))) := by
  have hth : max cfg.min_beat_confidence (1/1000000 : ℚ) = cfg.min_beat_confidence :=
    max_eq_left hthr
  constructor
  · intro hge
    simp only [apply_graceful_degradation, hth, scale_formula]
    rw [if_pos hge]
  · intro hlt
    simp only [apply_graceful_degradation, hth, scale_formula]
    rw [if_neg hlt]
    exact ⟨rfl, fun ch => rfl, rfl⟩

/-- Witness for C5 (amended): the claim's own instance — confidence 0.1
against threshold 0.8 gives scale 0.35; a non-protected channel at 200 is
committed at 70, while the protected laser channel 1 keeps its 200. -/
theorem C5_graceful_degradation_witness :
    (1/1000000 : ℚ) ≤ 4/5 ∧
    ¬(max (7/20 : ℚ) (min 1 ((1/10) / (4/5))) ≥ 999/1000) ∧
    (apply_graceful_degradation ⟨⟨100, 30, 3, 4⟩, ⟨10, 5, 2⟩, 1, 4/5, true⟩
        [⟨"l1", "laser", 1, true⟩] [⟨"x", "panel", [(50, 200), (1, 200)]⟩]
        (fun _ => 0) (1/10)).1 = [⟨"x", "panel", [(50, 70), (1, 200)]⟩] := by
  refine ⟨by norm_num, by norm_num [min_def, max_def], ?_⟩
  have h := (C5_graceful_degradation ⟨⟨100, 30, 3, 4⟩, ⟨10, 5, 2⟩, 1, 4/5, true⟩
    [⟨"l1", "laser", 1, true⟩] [⟨"x", "panel", [(50, 200), (1, 200)]⟩]
    (fun _ => 0) (1/10) (by norm_num)).2 (by norm_num [min_def, max_def])
  rw [h.1]
  have hval70 : pyInt (70 : ℚ) = 70 := by
    unfold pyInt
    rw [if_pos (by norm_num : (0:ℚ) ≤ 70)]
    rw [show ((70 : ℚ)) = ((70 : ℤ) : ℚ) by norm_num, Int.floor_intCast]
  simp only [List.map_cons, List.map_nil, List.filter_cons, List.filter_nil,
    List.contains_cons, List.contains_nil]
  norm_num [min_def, max_def, hval70]

/-! ### Strobe cooldown scenario (C2) -/
set_option maxHeartbeats 2000000 in
theorem strobe_tick_first_active (cfg : SafetyConfig) (channels : List ℤ)
    (st : InterlockState) (cmds : List FixtureCommand) (u : Universe) (t : ℚ)
    (hne : channels.isEmpty = false)
    (hact : strobe_active_now channels cmds u = true)
    (hts : st.strobe_timestamps = []) (hsst : st.strobe_start_time = none)
    (hcd : st.in_cooldown = false) (hlast : st.last_strobe_active = false)
    (hrate : (1 : ℚ) ≤ cfg.strobe.max_rate_hz)
    (hdur : 0 ≤ cfg.strobe.max_duration_s) :
    apply_strobe_guards cfg channels st cmds u t =
      ⟨{ st with
          strobe_timestamps := [t],
          strobe_start_time := some t,
          in_cooldown := false,
          cooldown_end := st.cooldown_end,
          last_strobe_active := true },
        cmds, u, none⟩ := by
  have hdw : decide (t - t > (1:ℚ)) = false := decide_eq_false (by rw [sub_self]; norm_num)
  have hd : decide (t - t > cfg.strobe.max_duration_s) = false :=
    decide_eq_false (by rw [sub_self]; exact not_lt.mpr hdur)
  have h100 : ((0+1 : ℕ) > 100) = False := by norm_num
  simp only [apply_strobe_guards, hne, hact, hts, hsst, hcd, hlast, Bool.not_false,
    Bool.and_self, Bool.true_and, Bool.and_true, Bool.false_eq_true, reduceIte,
    append_onset, List.nil_append, List.length_cons, List.length_nil, h100,
    List.dropWhile_cons, List.dropWhile_nil, hdw, hd, Option.isSome_none,
    Option.isSome_some, Nat.zero_add, Nat.cast_one]
  rw [if_neg (not_lt.mpr hrate)]
  simp only [Bool.false_eq_true, reduceIte, Option.isSome_none]

set_option maxHeartbeats 2000000 in
theorem strobe_tick_duration_trigger (cfg : SafetyConfig) (channels : List ℤ)
    (st : InterlockState) (cmds : List FixtureCommand) (u : Universe) (s t : ℚ)
    (hne : channels.isEmpty = false)
    (hact : strobe_active_now channels cmds u = true)
    (hts : st.strobe_timestamps = [s]) (hsst : st.strobe_start_time = some s)
    (hcd : st.in_cooldown = false) (hlast : st.last_strobe_active = true)
    (hwin : ¬(t - s > 1))
    (hdur : t - s > cfg.strobe.max_duration_s)
    (hrate : (1 : ℚ) ≤ cfg.strobe.max_rate_hz)
    (hcool : 0 < cfg.strobe.cooldown_s) :
    apply_strobe_guards cfg channels st cmds u t =
      ⟨{ st with
          strobe_timestamps := [s],
          strobe_start_time := none,
          in_cooldown := true,
          cooldown_end := t + cfg.strobe.cooldown_s,
          last_strobe_active := true },
        cmds.map (fun cmd =>
          { cmd with
            channel_values := cmd.channel_values.map (fun p =>
              if channels.contains p.1 then (p.1, 0) else p) }),
        fun ch => if channels.contains ch ∧ is_valid_dmx_channel ch then 0 else u ch,
        some "strobe_duration_limit_exceeded"⟩ := by
  have hdw : decide (t - s > (1:ℚ)) = false := decide_eq_false hwin
  have hd : decide (t - s > cfg.strobe.max_duration_s) = true := decide_eq_true hdur
  simp only [apply_strobe_guards, hne, hact, hts, hsst, hcd, hlast, Bool.not_true,
    Bool.and_false, Bool.false_eq_true, reduceIte, List.dropWhile_cons,
    List.dropWhile_nil, hdw, hd, Option.isSome_none, Option.isSome_some,
    List.length_cons, List.length_nil, Nat.zero_add, Nat.cast_one]
  rw [if_neg (not_lt.mpr hrate)]
  simp only [hd, reduceIte, Option.isSome_some]
  rw [if_neg (not_le.mpr (lt_add_of_pos_right t hcool))]

set_option maxHeartbeats 4000000 in
theorem strobe_tick_in_cooldown (cfg : SafetyConfig) (channels : List ℤ)
    (st : InterlockState) (cmds : List FixtureCommand) (u : Universe) (t : ℚ)
    (hne : channels.isEmpty = false)
    (hcd : st.in_cooldown = true)
    (ht : t < st.cooldown_end)
    (hcool : 0 < cfg.strobe.cooldown_s) :
    (apply_strobe_guards cfg channels st cmds u t).st.in_cooldown = true ∧
    min st.cooldown_end (t + cfg.strobe.cooldown_s) ≤
      (apply_strobe_guards cfg channels st cmds u t).st.cooldown_end ∧
    (apply_strobe_guards cfg channels st cmds u t).cmds =
      cmds.map (fun cmd =>
        { cmd with
          channel_values := cmd.channel_values.map (fun p =>
            if channels.contains p.1 then (p.1, 0) else p) }) ∧
    (apply_strobe_guards cfg channels st cmds u t).u =
      (fun ch => if channels.contains ch ∧ is_valid_dmx_channel ch then 0 else u ch) := by
  simp only [apply_strobe_guards, hne, hcd, ite_self, Bool.false_eq_true, reduceIte]
  split_ifs <;>
    first
      | exact ⟨rfl, min_le_right _ _, rfl, rfl⟩
      | exact ⟨rfl, min_le_left _ _, rfl, rfl⟩
      | linarith

theorem forced_cmds_zero (channels : List ℤ) (cmds : List FixtureCommand) :
    ∀ cmd ∈ cmds.map (fun cmd =>
        { cmd with
          channel_values := cmd.channel_values.map (fun p : ℤ × ℤ =>
            if channels.contains p.1 then (p.1, 0) else p) }),
      ∀ p ∈ cmd.channel_values, channels.contains p.1 = true → p.2 = 0 := by
  intro cmd' hc p hp hcont
  obtain ⟨cmd, _, hfc⟩ := List.mem_map.mp hc
  rw [← hfc] at hp
  simp only at hp
  obtain ⟨q, _, hpq⟩ := List.mem_map.mp hp
  by_cases hq : channels.contains q.1 = true
  · rw [if_pos hq] at hpq
    rw [← hpq]
  · rw [if_neg hq] at hpq
    rw [← hpq] at hcont
    exact absurd hcont hq

theorem degradation_pres_zero_cmds (cfg : SafetyConfig) (fixtures : List FixtureConfig)
    (cmds : List FixtureCommand) (u : Universe) (conf : ℚ) (channels : List ℤ)
    (h : ∀ cmd ∈ cmds, ∀ p ∈ cmd.channel_values, channels.contains p.1 = true → p.2 = 0) :
    ∀ cmd ∈ (apply_graceful_degradation cfg fixtures cmds u conf).1,
      ∀ p ∈ cmd.channel_values, channels.contains p.1 = true → p.2 = 0 := by
  intro cmd' hc p hp hcont
  obtain ⟨cmd, hcm, _, hrel⟩ :=
    apply_graceful_degradation_cmds_rel cfg fixtures cmds u conf cmd' hc
  obtain ⟨q, hq, hpq, hrel2⟩ := hrel p hp
  have hq0 : q.2 = 0 := h cmd hcm q hq (hpq ▸ hcont)
  rcases hrel2 with h' | ⟨hpos, _, _⟩
  · rw [h', hq0]
  · omega

theorem degradation_pres_zero_univ (cfg : SafetyConfig) (fixtures : List FixtureConfig)
    (cmds : List FixtureCommand) (u : Universe) (conf : ℚ) (ch : ℤ)
    (h : u ch = 0) :
    (apply_graceful_degradation cfg fixtures cmds u conf).2.1 ch = 0 := by
  rcases apply_graceful_degradation_univ_rel cfg fixtures cmds u conf ch with h' | ⟨hpos, _⟩
  · rw [h', h]
  · omega

theorem interlock_call_parts (cfg : SafetyConfig) (fixtures : List FixtureConfig)
    (st : InterlockState) (input : TickInput)
    (hhb : ¬(input.timestamp - st.last_heartbeat > cfg.heartbeat_timeout_s))
    (hem : st.emergency_stop = false) :
    (interlock_call cfg fixtures st input).st =
      (apply_strobe_guards cfg (derive_strobe_channels fixtures)
        { st with last_heartbeat := input.timestamp }
        (laser_clamp_cmds cfg fixtures input.fixture_commands)
        (laser_clamp_univ cfg fixtures input.dmx_universe) input.timestamp).st ∧
    (interlock_call cfg fixtures st input).out.safety_state.strobe_enabled =
      !(apply_strobe_guards cfg (derive_strobe_channels fixtures)
        { st with last_heartbeat := input.timestamp }
        (laser_clamp_cmds cfg fixtures input.fixture_commands)
        (laser_clamp_univ cfg fixtures input.dmx_universe) input.timestamp).st.in_cooldown ∧
    (((interlock_call cfg fixtures st input).out.fixture_commands =
        (apply_strobe_guards cfg (derive_strobe_channels fixtures)
          { st with last_heartbeat := input.timestamp }
          (laser_clamp_cmds cfg fixtures input.fixture_commands)
          (laser_clamp_univ cfg fixtures input.dmx_universe) input.timestamp).cmds ∧
      (interlock_call cfg fixtures st input).out.dmx_universe =
        (apply_strobe_guards cfg (derive_strobe_channels fixtures)
          { st with last_heartbeat := input.timestamp }
          (laser_clamp_cmds cfg fixtures input.fixture_commands)
          (laser_clamp_univ cfg fixtures input.dmx_universe) input.timestamp).u) ∨
     ((interlock_call cfg fixtures st input).out.fixture_commands =
        (apply_graceful_degradation cfg fixtures
          (apply_strobe_guards cfg (derive_strobe_channels fixtures)
            { st with last_heartbeat := input.timestamp }
            (laser_clamp_cmds cfg fixtures input.fixture_commands)
            (laser_clamp_univ cfg fixtures input.dmx_universe) input.timestamp).cmds
          (apply_strobe_guards cfg (derive_strobe_channels fixtures)
            { st with last_heartbeat := input.timestamp }
            (laser_clamp_cmds cfg fixtures input.fixture_commands)
            (laser_clamp_univ cfg fixtures input.dmx_universe) input.timestamp).u
          input.beat_confidence).1 ∧
      (interlock_call cfg fixtures st input).out.dmx_universe =
        (apply_graceful_degradation cfg fixtures
          (apply_strobe_guards cfg (derive_strobe_channels fixtures)
            { st with last_heartbeat := input.timestamp }
            (laser_clamp_cmds cfg fixtures input.fixture_commands)
            (laser_clamp_univ cfg fixtures input.dmx_universe) input.timestamp).cmds
          (apply_strobe_guards cfg (derive_strobe_channels fixtures)
            { st with last_heartbeat := input.timestamp }
            (laser_clamp_cmds cfg fixtures input.fixture_commands)
            (laser_clamp_univ cfg fixtures input.dmx_universe) input.timestamp).u
          input.beat_confidence).2.1)) := by
  have hhb' : decide (input.timestamp - st.last_heartbeat > cfg.heartbeat_timeout_s) = false :=
    decide_eq_false hhb
  simp only [interlock_call, hhb', hem, Bool.false_eq_true, reduceIte]
  refine ⟨trivial, trivial, ?_⟩
  by_cases hdeg : (decide (input.beat_confidence < cfg.min_beat_confidence) &&
      cfg.graceful_degradation) = true
  · rw [if_pos hdeg]
    exact Or.inr ⟨by trivial, by trivial⟩
  · rw [if_neg hdeg]
    exact Or.inl ⟨by trivial, by trivial⟩

theorem interlock_call_decomp_full (cfg : SafetyConfig) (fixtures : List FixtureConfig)
    (st : InterlockState) (input : TickInput) :
    ∃ u0 : Universe,
      (interlock_call cfg fixtures st input).st =
        (apply_strobe_guards cfg (derive_strobe_channels fixtures)
          { st with last_heartbeat := input.timestamp }
          (laser_clamp_cmds cfg fixtures input.fixture_commands)
          (laser_clamp_univ cfg fixtures u0) input.timestamp).st ∧
      (interlock_call cfg fixtures st input).out.safety_state.strobe_enabled =
        !(apply_strobe_guards cfg (derive_strobe_channels fixtures)
          { st with last_heartbeat := input.timestamp }
          (laser_clamp_cmds cfg fixtures input.fixture_commands)
          (laser_clamp_univ cfg fixtures u0) input.timestamp).st.in_cooldown ∧
      (((interlock_call cfg fixtures st input).out.fixture_commands =
          (apply_strobe_guards cfg (derive_strobe_channels fixtures)
            { st with last_heartbeat := input.timestamp }
            (laser_clamp_cmds cfg fixtures input.fixture_commands)
            (laser_clamp_univ cfg fixtures u0) input.timestamp).cmds ∧
        (interlock_call cfg fixtures st input).out.dmx_universe =
          (apply_strobe_guards cfg (derive_strobe_channels fixtures)
            { st with last_heartbeat := input.timestamp }
            (laser_clamp_cmds cfg fixtures input.fixture_commands)
            (laser_clamp_univ cfg fixtures u0) input.timestamp).u) ∨
       ((interlock_call cfg fixtures st input).out.fixture_commands =
          (apply_graceful_degradation cfg fixtures
            (apply_strobe_guards cfg (derive_strobe_channels fixtures)
              { st with last_heartbeat := input.timestamp }
              (laser_clamp_cmds cfg fixtures input.fixture_commands)
              (laser_clamp_univ cfg fixtures u0) input.timestamp).cmds
            (apply_strobe_guards cfg (derive_strobe_channels fixtures)
              { st with last_heartbeat := input.timestamp }
              (laser_clamp_cmds cfg fixtures input.fixture_commands)
              (laser_clamp_univ cfg fixtures u0) input.timestamp).u
            input.beat_confidence).1 ∧
        (interlock_call cfg fixtures st input).out.dmx_universe =
          (apply_graceful_degradation cfg fixtures
            (apply_strobe_guards cfg (derive_strobe_channels fixtures)
              { st with last_heartbeat := input.timestamp }
              (laser_clamp_cmds cfg fixtures input.fixture_commands)
              (laser_clamp_univ cfg fixtures u0) input.timestamp).cmds
            (apply_strobe_guards cfg (derive_strobe_channels fixtures)
              { st with last_heartbeat := input.timestamp }
              (laser_clamp_cmds cfg fixtures input.fixture_commands)
              (laser_clamp_univ cfg fixtures u0) input.timestamp).u
            input.beat_confidence).2.1)) := by
  simp only [interlock_call]
  refine ⟨_, rfl, rfl, ?_⟩
  by_cases hdeg : (decide (input.beat_confidence < cfg.min_beat_confidence) &&
      cfg.graceful_degradation) = true
  · rw [if_pos hdeg]
    exact Or.inr ⟨by trivial, by trivial⟩
  · rw [if_neg hdeg]
    exact Or.inl ⟨by trivial, by trivial⟩

theorem interlock_run_acc (cfg : SafetyConfig) (fixtures : List FixtureConfig) :
    ∀ (inputs : List TickInput) (st : InterlockState) (acc : List TickOutput),
      inputs.foldl (fun a inp =>
        ((interlock_call cfg fixtures a.1 inp).st,
         a.2 ++ [(interlock_call cfg fixtures a.1 inp).out])) (st, acc) =
      ((interlock_run cfg fixtures st inputs).1,
        acc ++ (interlock_run cfg fixtures st inputs).2)
  | [], st, acc => by
    simp [interlock_run]
  | inp :: rest, st, acc => by
    have h1 := interlock_run_acc cfg fixtures rest (interlock_call cfg fixtures st inp).st
      (acc ++ [(interlock_call cfg fixtures st inp).out])
    have h2 := interlock_run_acc cfg fixtures rest (interlock_call cfg fixtures st inp).st
      [(interlock_call cfg fixtures st inp).out]
    simp only [interlock_run, List.foldl_cons, List.nil_append] at h1 h2 ⊢
    rw [h1, h2]
    simp [List.append_assoc]

theorem interlock_run_cons (cfg : SafetyConfig) (fixtures : List FixtureConfig)
    (st : InterlockState) (inp : TickInput) (rest : List TickInput) :
    interlock_run cfg fixtures st (inp :: rest) =
      ((interlock_run cfg fixtures (interlock_call cfg fixtures st inp).st rest).1,
       (interlock_call cfg fixtures st inp).out ::
         (interlock_run cfg fixtures (interlock_call cfg fixtures st inp).st rest).2) := by
  have h := interlock_run_acc cfg fixtures rest (interlock_call cfg fixtures st inp).st
    [(interlock_call cfg fixtures st inp).out]
  simp only [interlock_run, List.foldl_cons, List.nil_append] at h ⊢
  rw [h]
  simp

theorem interlock_run_cooldown (cfg : SafetyConfig) (fixtures : List FixtureConfig) (E : ℚ)
    (hcool : 0 < cfg.strobe.cooldown_s)
    (hch : (derive_strobe_channels fixtures).isEmpty = false) :
    ∀ (rest : List TickInput) (st : InterlockState),
      st.in_cooldown = true → E ≤ st.cooldown_end →
      (∀ inp ∈ rest, E - cfg.strobe.cooldown_s ≤ inp.timestamp ∧ inp.timestamp < E) →
      ∀ out ∈ (interlock_run cfg fixtures st rest).2,
        out.safety_state.strobe_enabled = false ∧
        (∀ cmd ∈ out.fixture_commands, ∀ p ∈ cmd.channel_values,
          (derive_strobe_channels fixtures).contains p.1 = true → p.2 = 0) ∧
        (∀ ch : ℤ, (derive_strobe_channels fixtures).contains ch = true →
          is_valid_dmx_channel ch = true → out.dmx_universe ch = 0)
  | [], st => by
    intro _ _ _ out hout
    simp [interlock_run] at hout
  | inp :: rest, st => by
    intro hcd hE hts out hout
    rw [interlock_run_cons] at hout
    obtain ⟨htim1, htim2⟩ := hts inp (List.mem_cons_self _ _)
    obtain ⟨u0, hst, hen, hart⟩ := interlock_call_decomp_full cfg fixtures st inp
    have hg := strobe_tick_in_cooldown cfg (derive_strobe_channels fixtures)
      { st with last_heartbeat := inp.timestamp }
      (laser_clamp_cmds cfg fixtures inp.fixture_commands)
      (laser_clamp_univ cfg fixtures u0) inp.timestamp hch hcd
      (lt_of_lt_of_le htim2 hE) hcool
    have hE' : E ≤ (interlock_call cfg fixtures st inp).st.cooldown_end := by
      rw [hst]
      refine le_trans (le_min hE (by linarith)) hg.2.1
    have hcd' : (interlock_call cfg fixtures st inp).st.in_cooldown = true := by
      rw [hst]; exact hg.1
    rcases List.mem_cons.mp hout with h | h
    · subst h
      refine ⟨?_, ?_, ?_⟩
      · rw [hen, hg.1]
        rfl
      · rcases hart with ⟨hfc, _⟩ | ⟨hfc, _⟩
        · rw [hfc, hg.2.2.1]
          exact forced_cmds_zero _ _
        · rw [hfc]
          exact degradation_pres_zero_cmds _ _ _ _ _ _
            (by rw [hg.2.2.1]; exact forced_cmds_zero _ _)
      · intro ch hc hv
        rcases hart with ⟨_, hu⟩ | ⟨_, hu⟩
        · rw [hu, hg.2.2.2]
          exact if_pos ⟨hc, hv⟩
        · rw [hu]
          exact degradation_pres_zero_univ _ _ _ _ _ _
            (by rw [hg.2.2.2]; exact if_pos ⟨hc, hv⟩)
    · exact interlock_run_cooldown cfg fixtures E hcool hch rest
        (interlock_call cfg fixtures st inp).st hcd' hE'
        (fun i hi => hts i (List.mem_cons_of_mem _ hi)) out h

/-- Claim C2: with strobe config max_rate_hz=50, max_duration_s=0.01,
cooldown_s=1.0, a known strobe channel active on two consecutive ticks 20 ms
apart trips the duration guard on the second tick: the interlock enters
cooldown with cooldown_end = t2 + 1 s, reports strobe_enabled = false, and
forces every known strobe channel to 0 in both the outgoing fixture_commands
and the universe, on the triggering tick and on every further tick whose
timestamp lies before the cooldown expires. -/
theorem C2_strobe_cooldown (cfg : SafetyConfig) (fixtures : List FixtureConfig)
    (st0 : InterlockState) (in1 in2 : TickInput) (rest : List TickInput) (t0 : ℚ)
    (hcfg : cfg.strobe = ⟨50, 1/100, 1⟩)
    (hch : (derive_strobe_channels fixtures).isEmpty = false)
    (hts : st0.strobe_timestamps = []) (hsst : st0.strobe_start_time = none)
    (hcd : st0.in_cooldown = false) (hlast : st0.last_strobe_active = false)
    (hem : st0.emergency_stop = false)
    (ht1 : in1.timestamp = t0) (ht2 : in2.timestamp = t0 + 1/50)
    (hhb1 : ¬(t0 - st0.last_heartbeat > cfg.heartbeat_timeout_s))
    (hhb2 : ¬((1/50 : ℚ) > cfg.heartbeat_timeout_s))
    (hact1 : strobe_active_now (derive_strobe_channels fixtures)
        (laser_clamp_cmds cfg fixtures in1.fixture_commands)
        (laser_clamp_univ cfg fixtures in1.dmx_universe) = true)
    (hact2 : strobe_active_now (derive_strobe_channels fixtures)
        (laser_clamp_cmds cfg fixtures in2.fixture_commands)
        (laser_clamp_univ cfg fixtures in2.dmx_universe) = true)
    (hrest : ∀ inp ∈ rest, t0 + 1/50 ≤ inp.timestamp ∧ inp.timestamp < t0 + 1/50 + 1) :
    (interlock_call cfg fixtures (interlock_call cfg fixtures st0 in1).st in2).st.in_cooldown
      = true ∧
    (interlock_call cfg fixtures (interlock_call cfg fixtures st0 in1).st in2).st.cooldown_end
      = t0 + 1/50 + 1 ∧
    (interlock_call cfg fixtures (interlock_call cfg fixtures st0 in1).st
      in2).out.safety_state.strobe_enabled = false ∧
    (∀ cmd ∈ (interlock_call cfg fixtures (interlock_call cfg fixtures st0 in1).st
        in2).out.fixture_commands,
      ∀ p ∈ cmd.channel_values,
        (derive_strobe_channels fixtures).contains p.1 = true → p.2 = 0) ∧
    (∀ ch : ℤ, (derive_strobe_channels fixtures).contains ch = true →
      is_valid_dmx_channel ch = true →
      (interlock_call cfg fixtures (interlock_call cfg fixtures st0 in1).st
        in2).out.dmx_universe ch = 0) ∧
    (∀ out ∈ (interlock_run cfg fixtures
        (interlock_call cfg fixtures (interlock_call cfg fixtures st0 in1).st in2).st
        rest).2,
      out.safety_state.strobe_enabled = false ∧
      (∀ cmd ∈ out.fixture_commands, ∀ p ∈ cmd.channel_values,
        (derive_strobe_channels fixtures).contains p.1 = true → p.2 = 0) ∧
      (∀ ch : ℤ, (derive_strobe_channels fixtures).contains ch = true →
        is_valid_dmx_channel ch = true → out.dmx_universe ch = 0)) := by
  have hp1 := interlock_call_parts cfg fixtures st0 in1 (by rw [ht1]; exact hhb1) hem
  have hg1 := strobe_tick_first_active cfg (derive_strobe_channels fixtures)
    { st0 with last_heartbeat := in1.timestamp }
    (laser_clamp_cmds cfg fixtures in1.fixture_commands)
    (laser_clamp_univ cfg fixtures in1.dmx_universe) in1.timestamp
    hch hact1 hts hsst hcd hlast
    (by rw [hcfg]; norm_num) (by rw [hcfg]; norm_num)
  have hst1 : (interlock_call cfg fixtures st0 in1).st =
      { st0 with
        last_heartbeat := in1.timestamp,
        strobe_timestamps := [in1.timestamp],
        strobe_start_time := some in1.timestamp,
        in_cooldown := false,
        last_strobe_active := true } := by
    rw [hp1.1, hg1]
  have hhb2' : ¬(in2.timestamp - (interlock_call cfg fixtures st0 in1).st.last_heartbeat >
      cfg.heartbeat_timeout_s) := by
    simp only [hst1, ht1, ht2]
    intro hgt
    exact hhb2 (by linarith)
  have hem2' : (interlock_call cfg fixtures st0 in1).st.emergency_stop = false := by
    simp only [hst1]
    exact hem
  have hp2 := interlock_call_parts cfg fixtures (interlock_call cfg fixtures st0 in1).st in2
    hhb2' hem2'
  have hg2 := strobe_tick_duration_trigger cfg (derive_strobe_channels fixtures)
    { (interlock_call cfg fixtures st0 in1).st with last_heartbeat := in2.timestamp }
    (laser_clamp_cmds cfg fixtures in2.fixture_commands)
    (laser_clamp_univ cfg fixtures in2.dmx_universe) in1.timestamp in2.timestamp
    hch hact2
    (by simp only [hst1])
    (by simp only [hst1])
    (by simp only [hst1])
    (by simp only [hst1])
    (by rw [ht1, ht2]; intro hgt; linarith)
    (by rw [ht1, ht2, hcfg]; show t0 + 1/50 - t0 > (1:ℚ)/100; linarith)
    (by rw [hcfg]; norm_num)
    (by rw [hcfg]; norm_num)
  refine ⟨?_, ?_, ?_, ?_, ?_, ?_⟩
  · rw [hp2.1, hg2]
  · rw [hp2.1, hg2, ht2, hcfg]
  · rw [hp2.2.1, hg2]
    rfl
  · rcases hp2.2.2 with ⟨hfc, _⟩ | ⟨hfc, _⟩
    · rw [hfc, hg2]
      exact forced_cmds_zero _ _
    · rw [hfc]
      exact degradation_pres_zero_cmds _ _ _ _ _ _
        (by rw [hg2]; exact forced_cmds_zero _ _)
  · intro ch hc hv
    rcases hp2.2.2 with ⟨_, hu⟩ | ⟨_, hu⟩
    · rw [hu, hg2]
      exact if_pos ⟨hc, hv⟩
    · rw [hu]
      exact degradation_pres_zero_univ _ _ _ _ _ _
        (by rw [hg2]; exact if_pos ⟨hc, hv⟩)
  · intro out hout
    refine interlock_run_cooldown cfg fixtures (t0 + 1/50 + 1)
      (by rw [hcfg]; norm_num) hch rest _ ?_ ?_ ?_ out hout
    · rw [hp2.1, hg2]
    · exact le_of_eq (by rw [hp2.1, hg2, ht2, hcfg])
    · intro i hi
      obtain ⟨h1, h2⟩ := hrest i hi
      constructor
      · rw [hcfg]
        show t0 + 1/50 + 1 - 1 ≤ i.timestamp
        linarith
      · exact h2

/-- Witness for C2: a panel at base address 10 (strobe channel 14) held at
200 on ticks at t=0 and t=0.02 trips the duration guard: cooldown is
entered until 1.02, strobe_enabled reads false, and channel 14 is forced to
0 in both the outgoing commands and the universe. -/
theorem C2_strobe_cooldown_witness :
    (interlock_call c2cfg [c2fix] (interlock_call c2cfg [c2fix] c2st0 c2in1).st
      c2in2).st.in_cooldown = true ∧
    (interlock_call c2cfg [c2fix] (interlock_call c2cfg [c2fix] c2st0 c2in1).st
      c2in2).st.cooldown_end = 1/50 + 1 ∧
    (interlock_call c2cfg [c2fix] (interlock_call c2cfg [c2fix] c2st0 c2in1).st
      c2in2).out.safety_state.strobe_enabled = false ∧
    (∀ cmd ∈ (interlock_call c2cfg [c2fix] (interlock_call c2cfg [c2fix] c2st0 c2in1).st
        c2in2).out.fixture_commands,
      ∀ p ∈ cmd.channel_values,
        (derive_strobe_channels [c2fix]).contains p.1 = true → p.2 = 0) ∧
    (interlock_call c2cfg [c2fix] (interlock_call c2cfg [c2fix] c2st0 c2in1).st
      c2in2).out.dmx_universe 14 = 0 := by
  have h := C2_strobe_cooldown c2cfg [c2fix] c2st0 c2in1 c2in2 [] 0
    rfl rfl rfl rfl rfl rfl rfl rfl (by simp only [c2in2]; norm_num)
    (by simp only [c2cfg, c2st0]; norm_num)
    (by simp only [c2cfg]; norm_num)
    (by decide) (by decide)
    (by intro inp hinp; simp at hinp)
  exact ⟨h.1, by rw [h.2.1]; norm_num, h.2.2.1, h.2.2.2.1,
    h.2.2.2.2.1 14 (by decide) (by decide)⟩
